import Mathlib

/-!
Verification development for the Backend_CV repository: a shallow embedding of
the domain entities (`src/domain/entities.py`), the SQL-backed repositories
(`src/infrastructure/repositories/*.py`) modelled over an in-memory relational
store, and the application services (`src/application/services/*.py`), together
with theorems about the ownership, audit, soft-delete and authentication
behaviour of those services.

Modelling conventions:
- Python `datetime` / `date` values are abstract ticks (`Nat`); `datetime.now()`
  is threaded through as an explicit `now` argument.
- Database-assigned primary keys come from a single `next_id` counter in the
  store; `id : Option Nat` mirrors the dataclasses' `id: Optional[int] = None`.
- Exceptions are values of `DomainError`; a service call returns `Res α`, which
  carries the resulting store in both the success and the error case (so that
  partially committed writes before an exception are represented faithfully).
- The repositories' `_to_domain` conversion is the identity here (store rows
  are domain entities); its re-run of `__post_init__` on rows read back from
  storage is not modelled.
- SQL `order_by` clauses are modelled with `List.insertionSort`.
-/

namespace BackendCV

/-- Python `datetime`, abstracted to a tick. -/
abbrev DateTime := Nat

/-- Python `date`, abstracted to a tick (only its order is used). -/
abbrev PyDate := Nat

/-- `UserRole` enum from `src/domain/entities.py`. -/
inductive UserRole where
  | admin
  | superadmin
deriving Repr, DecidableEq

/-- `.value` of the `UserRole` string enum. -/
def UserRole.value : UserRole → String
  | .admin => "admin"
  | .superadmin => "superadmin"

/-- `ProjectCategory` enum from `src/domain/entities.py`. -/
inductive ProjectCategory where
  | fullstack
  | backend
  | frontend
deriving Repr, DecidableEq

/-- `TechnologyCategory` enum from `src/domain/entities.py`. -/
inductive TechnologyCategory where
  | frontend
  | backend
  | databases
  | apis
  | dev_tools
  | cloud
  | testing
  | architecture
  | security
deriving Repr, DecidableEq

/-- The domain exception hierarchy (`src/domain/exceptions.py` plus the
per-service exception classes and Python's builtin `ValueError` raised by some
repository `update` methods). Each constructor carries the message string. -/
inductive DomainError where
  | domainException : String → DomainError
  | invalidUser : String → DomainError
  | userAlreadyExists : String → DomainError
  | profileAlreadyExists : String → DomainError
  | profileNotFound : String → DomainError
  | unauthorizedAccess : String → DomainError
  | clientNotFound : String → DomainError
  | workExperienceNotFound : String → DomainError
  | projectNotFound : String → DomainError
  | technologyNotFound : String → DomainError
  | socialNotFound : String → DomainError
  | valueError : String → DomainError
deriving Repr, DecidableEq

/-- `User` dataclass fields, in source order. -/
structure User where
  username : String
  email : String
  password_hash : String
  role : UserRole
  id : Option Nat
  last_login : Option DateTime
  created_at : DateTime
  updated_at : Option DateTime
  created_by : Option Nat
  updated_by : Option Nat
  is_active : Bool
deriving Repr, DecidableEq

/-- `User.__post_init__` domain validation (`"@" in email` is membership of
the character '@'). -/
def User.validate (u : User) : Except DomainError User :=
  if ¬ u.email.toList.contains '@' then
    .error (.invalidUser "El email debe tener un formato válido.")
  else if u.username.length < 3 then
    .error (.invalidUser "El username debe tener al menos 3 caracteres.")
  else .ok u

/-- `Profile` dataclass fields, in source order. -/
structure Profile where
  user_id : Nat
  name : String
  last_name : String
  email : String
  current_title : Option String
  bio_summary : Option String
  phone : Option String
  location : Option String
  photo_url : Option String
  id : Option Nat
  created_at : DateTime
  updated_at : Option DateTime
  created_by : Option Nat
  updated_by : Option Nat
  is_active : Bool
deriving Repr, DecidableEq

/-- Python `str.split()` with no separator: the maximal whitespace-free runs,
empty runs dropped. -/
def pyWordsAux : List Char → List Char → List (List Char)
  | [], acc => if acc.isEmpty then [] else [acc.reverse]
  | c :: rest, acc =>
    if c.isWhitespace then
      if acc.isEmpty then pyWordsAux rest []
      else acc.reverse :: pyWordsAux rest []
    else pyWordsAux rest (c :: acc)

/-- Python `" ".join(str(s).split())`: collapse whitespace runs. -/
def pyJoinSplit (s : String) : String :=
  " ".intercalate ((pyWordsAux s.toList []).map String.mk)

/-- Python `str(s).strip().lower()`. -/
def pyStripLower (s : String) : String :=
  String.mk
    (((s.toList.dropWhile Char.isWhitespace).reverse.dropWhile
        Char.isWhitespace).reverse.map Char.toLower)

/-- Python `str.title()`: a character after a cased (here: alphabetic)
character is lowercased, otherwise uppercased. -/
def pyTitle (s : String) : String :=
  String.mk ((s.toList.foldl
    (fun (acc : List Char × Bool) c =>
      (acc.1 ++ [if acc.2 then c.toLower else c.toUpper], c.isAlpha))
    (([] : List Char), false)).1)

/-- `Profile.__post_init__`: normalize name / last_name / email, then require
both names to be non-empty. -/
def Profile.validate (p : Profile) : Except DomainError Profile :=
  let p := { p with
    name := pyTitle (pyJoinSplit p.name)
    last_name := pyTitle (pyJoinSplit p.last_name)
    email := pyStripLower p.email }
  if p.name = "" ∨ p.last_name = "" then
    .error (.invalidUser "El nombre y el apellido son obligatorios.")
  else .ok p

/-- `WorkExperience` dataclass fields, in source order.
Note: unlike `User` and `Profile`, this dataclass has no `created_at` field. -/
structure WorkExperience where
  profile_id : Nat
  job_title : String
  company : String
  location : Option String
  start_date : PyDate
  end_date : Option PyDate
  description : Option String
  id : Option Nat
  updated_at : Option DateTime
  created_by : Option Nat
  updated_by : Option Nat
  is_active : Bool
deriving Repr, DecidableEq

/-- `WorkExperience.__post_init__`. -/
def WorkExperience.validate (w : WorkExperience) : Except DomainError WorkExperience :=
  if w.job_title = "" ∨ w.company = "" then
    .error (.invalidUser "El cargo y la empresa son obligatorios.")
  else if (match w.end_date with
           | some e => decide (e < w.start_date)
           | none => false) then
    .error (.invalidUser "La fecha de fin no puede ser anterior a la de inicio.")
  else .ok w

/-- `Project` dataclass fields, in source order. -/
structure Project where
  profile_id : Nat
  title : String
  category : ProjectCategory
  description : Option String
  thumbnail_url : Option String
  live_url : Option String
  repo_url : Option String
  featured : Bool
  work_experience_id : Option Nat
  id : Option Nat
  updated_at : Option DateTime
  created_by : Option Nat
  updated_by : Option Nat
  is_active : Bool
deriving Repr, DecidableEq

/-- `Project.__post_init__`. -/
def Project.validate (p : Project) : Except DomainError Project :=
  if p.title = "" then
    .error (.invalidUser "El título del proyecto es obligatorio.")
  else .ok p

/-- `Technology` dataclass fields, in source order. -/
structure Technology where
  profile_id : Nat
  name : String
  category : TechnologyCategory
  icon_url : Option String
  id : Option Nat
  updated_at : Option DateTime
  created_by : Option Nat
  updated_by : Option Nat
  is_active : Bool
deriving Repr, DecidableEq

/-- `Technology.__post_init__`. -/
def Technology.validate (t : Technology) : Except DomainError Technology :=
  if t.name = "" then
    .error (.invalidUser "El nombre de la tecnología es obligatorio.")
  else .ok t

/-- `ProjectTech` dataclass fields, in source order.
Note: no `id` and no `created_at` field (composite key join row). -/
structure ProjectTech where
  project_id : Nat
  tech_id : Nat
  updated_at : Option DateTime
  created_by : Option Nat
  updated_by : Option Nat
  is_active : Bool
deriving Repr, DecidableEq

/-- `Client` dataclass fields, in source order. -/
structure Client where
  profile_id : Nat
  name : String
  company : Option String
  feedback : Option String
  client_photo_url : Option String
  project_link : Option String
  id : Option Nat
  updated_at : Option DateTime
  created_by : Option Nat
  updated_by : Option Nat
  is_active : Bool
deriving Repr, DecidableEq

/-- `Client.__post_init__`. -/
def Client.validate (c : Client) : Except DomainError Client :=
  if c.name = "" then
    .error (.invalidUser "El nombre del cliente es obligatorio.")
  else .ok c

/-- `Social` dataclass fields, in source order. -/
structure Social where
  profile_id : Nat
  platform : String
  url : String
  icon_name : Option String
  sort_order : Nat
  id : Option Nat
  updated_at : Option DateTime
  created_by : Option Nat
  updated_by : Option Nat
  is_active : Bool
deriving Repr, DecidableEq

/-- `Social.__post_init__`. -/
def Social.validate (s : Social) : Except DomainError Social :=
  if s.platform = "" ∨ s.url = "" then
    .error (.invalidUser "La plataforma y la URL son obligatorios.")
  else .ok s

/-- `ProjectPreview` dataclass fields, in source order (the Python field
`order` is called `sort_order` here). -/
structure ProjectPreview where
  project_id : Nat
  image_url : String
  caption : Option String
  sort_order : Nat
  id : Option Nat
  updated_at : Option DateTime
  created_by : Option Nat
  updated_by : Option Nat
  is_active : Bool
deriving Repr, DecidableEq

/-- `ProjectPreview.__post_init__`. -/
def ProjectPreview.validate (p : ProjectPreview) : Except DomainError ProjectPreview :=
  if p.image_url = "" then
    .error (.invalidUser "La URL de la imagen es obligatoria.")
  else .ok p

/-- Byte-wise lexicographic comparison of strings (the model of the SQL
`order_by <text column> asc` collation). -/
def strLeB : List Char → List Char → Bool
  | [], _ => true
  | _ :: _, [] => false
  | a :: as, b :: bs =>
    if a.toNat < b.toNat then true
    else if b.toNat < a.toNat then false
    else strLeB as bs

/-- String comparison used by the name orderings. -/
def nameLe (a b : String) : Bool := strLeB a.toList b.toList

/-- The relational store: one row list per table plus a primary-key
dispenser standing for the database's autoincrement sequences. -/
structure Store where
  users : List User
  profiles : List Profile
  work_experiences : List WorkExperience
  projects : List Project
  technologies : List Technology
  clients : List Client
  socials : List Social
  project_techs : List ProjectTech
  project_previews : List ProjectPreview
  next_id : Nat
deriving Repr, DecidableEq

/-- A table is well formed when every row has a storage-assigned id and no two
row positions carry the same id (primary-key property of the database). -/
@[reducible] def TableWF {α : Type} (l : List α) (getId : α → Option Nat) : Prop :=
  (∀ r ∈ l, (getId r).isSome) ∧ (l.map getId).Nodup

/-- Patch the first element matching `p` with `f`, returning the patched
element (if any) and the new list; models `select ... .first()` followed by
field assignment and commit. -/
def updateFirst {α : Type} (l : List α) (p : α → Bool) (f : α → α) : Option α × List α :=
  match l with
  | [] => (none, [])
  | x :: xs =>
    if p x then (some (f x), f x :: xs)
    else
      let r := updateFirst xs p f
      (r.1, x :: r.2)

/-- Render an optional id the way Python formats it into f-strings. -/
def optIdStr : Option Nat → String
  | some n => toString n
  | none => "None"

/-! ## Repositories (`src/infrastructure/repositories/*.py`) -/

/-- `SqlAlchemyUserRepository.get_by_email` (no `is_active` filter). -/
def UserRepo.get_by_email (s : Store) (email : String) : Option User :=
  s.users.find? (fun m => m.email == email)

/-- `SqlAlchemyUserRepository.get_by_username` (no `is_active` filter). -/
def UserRepo.get_by_username (s : Store) (username : String) : Option User :=
  s.users.find? (fun m => m.username == username)

/-- `SqlAlchemyUserRepository.save`: insert, let the database assign the id,
return the refreshed row. -/
def UserRepo.save (s : Store) (user : User) : User × Store :=
  let row := { user with id := some s.next_id }
  (row, { s with users := s.users ++ [row], next_id := s.next_id + 1 })

/-- `SqlAlchemyUserRepository.update`: overwrite the listed columns of the row
with the user's id; if no row matches, return the entity unchanged. -/
def UserRepo.update (s : Store) (user : User) : User × Store :=
  match updateFirst s.users (fun m => m.id == user.id)
      (fun m => { m with
        username := user.username, email := user.email,
        password_hash := user.password_hash, role := user.role,
        last_login := user.last_login, updated_at := user.updated_at,
        updated_by := user.updated_by, is_active := user.is_active }) with
  | (some m, l) => (m, { s with users := l })
  | (none, _) => (user, s)

/-- `SqlAlchemyProfileRepository.get_by_user_id`.
Faithful to the source: there is NO `is_active` filter in this query. -/
def ProfileRepo.get_by_user_id (s : Store) (user_id : Nat) : Option Profile :=
  s.profiles.find? (fun m => m.user_id == user_id)

/-- `SqlAlchemyClientRepository.get_by_id` (active rows only). -/
def ClientRepo.get_by_id (s : Store) (client_id : Nat) : Option Client :=
  s.clients.find? (fun m => m.id == some client_id && m.is_active)

/-- `SqlAlchemyClientRepository.get_all_by_profile_id`
(active rows of the profile, ordered by name ascending). -/
def ClientRepo.get_all_by_profile_id (s : Store) (profile_id : Nat) : List Client :=
  ((s.clients.filter (fun m => m.profile_id == profile_id && m.is_active)).insertionSort
    (fun a b => nameLe a.name b.name = true))

/-- `SqlAlchemyClientRepository.save`. -/
def ClientRepo.save (s : Store) (client : Client) : Client × Store :=
  let row := { client with id := some s.next_id }
  (row, { s with clients := s.clients ++ [row], next_id := s.next_id + 1 })

/-- `SqlAlchemyClientRepository.update`: overwrite the listed columns (note:
`profile_id`, `created_by` and `is_active` are not written); raise `ValueError`
if no row has the client's id. -/
def ClientRepo.update (s : Store) (client : Client) : Except DomainError (Client × Store) :=
  match updateFirst s.clients (fun m => m.id == client.id)
      (fun m => { m with
        name := client.name, company := client.company,
        feedback := client.feedback, client_photo_url := client.client_photo_url,
        project_link := client.project_link, updated_at := client.updated_at,
        updated_by := client.updated_by }) with
  | (some m, l) => .ok (m, { s with clients := l })
  | (none, _) => .error (.valueError ("Client with id " ++ optIdStr client.id ++ " not found"))

/-- `SqlAlchemyClientRepository.delete`: soft delete by id. -/
def ClientRepo.delete (s : Store) (client_id : Nat) (deleted_by : Nat) (now : DateTime) :
    Bool × Store :=
  match updateFirst s.clients (fun m => m.id == some client_id)
      (fun m => { m with is_active := false, updated_at := some now,
                         updated_by := some deleted_by }) with
  | (some _, l) => (true, { s with clients := l })
  | (none, _) => (false, s)

/-- `WorkExperienceRepository.get_by_id`.
Faithful to the source: there is NO `is_active` filter in this query. -/
def WorkExperienceRepo.get_by_id (s : Store) (work_experience_id : Nat) : Option WorkExperience :=
  s.work_experiences.find? (fun m => m.id == some work_experience_id)

/-- `WorkExperienceRepository.get_all_by_profile_id`
(active rows of the profile, ordered by start_date descending). -/
def WorkExperienceRepo.get_all_by_profile_id (s : Store) (profile_id : Nat) :
    List WorkExperience :=
  ((s.work_experiences.filter (fun m => m.profile_id == profile_id && m.is_active)).insertionSort
    (fun a b => b.start_date ≤ a.start_date))

/-- `WorkExperienceRepository.save`. -/
def WorkExperienceRepo.save (s : Store) (w : WorkExperience) : WorkExperience × Store :=
  let row := { w with id := some s.next_id }
  (row, { s with work_experiences := s.work_experiences ++ [row], next_id := s.next_id + 1 })

/-- `WorkExperienceRepository.update`: overwrite the listed columns (this one
does write `is_active`); if no row matches, return the entity unchanged. -/
def WorkExperienceRepo.update (s : Store) (w : WorkExperience) : WorkExperience × Store :=
  match updateFirst s.work_experiences (fun m => m.id == w.id)
      (fun m => { m with
        job_title := w.job_title, company := w.company, location := w.location,
        start_date := w.start_date, end_date := w.end_date,
        description := w.description, updated_at := w.updated_at,
        updated_by := w.updated_by, is_active := w.is_active }) with
  | (some m, l) => (m, { s with work_experiences := l })
  | (none, _) => (w, s)

/-- `WorkExperienceRepository.delete`: soft delete by id. -/
def WorkExperienceRepo.delete (s : Store) (work_experience_id : Nat) (deleted_by : Nat)
    (now : DateTime) : Bool × Store :=
  match updateFirst s.work_experiences (fun m => m.id == some work_experience_id)
      (fun m => { m with is_active := false, updated_by := some deleted_by,
                         updated_at := some now }) with
  | (some _, l) => (true, { s with work_experiences := l })
  | (none, _) => (false, s)

/-- `SqlAlchemyProjectRepository.get_by_id` (active rows only). -/
def ProjectRepo.get_by_id (s : Store) (project_id : Nat) : Option Project :=
  s.projects.find? (fun m => m.id == some project_id && m.is_active)

/-- `SqlAlchemyProjectRepository.get_all_by_profile_id` (active rows of the
profile, featured first, then id descending). -/
def ProjectRepo.get_all_by_profile_id (s : Store) (profile_id : Nat) : List Project :=
  ((s.projects.filter (fun m => m.profile_id == profile_id && m.is_active)).insertionSort
    (fun a b => ((a.featured && !b.featured) ||
      (a.featured == b.featured && decide (b.id.getD 0 ≤ a.id.getD 0))) = true))

/-- `SqlAlchemyProjectRepository.get_featured_by_profile_id`. -/
def ProjectRepo.get_featured_by_profile_id (s : Store) (profile_id : Nat) : List Project :=
  ((s.projects.filter (fun m => m.profile_id == profile_id && m.featured && m.is_active)).insertionSort
    (fun a b => b.id.getD 0 ≤ a.id.getD 0))

/-- `SqlAlchemyProjectRepository.save`. -/
def ProjectRepo.save (s : Store) (p : Project) : Project × Store :=
  let row := { p with id := some s.next_id }
  (row, { s with projects := s.projects ++ [row], next_id := s.next_id + 1 })

/-- `SqlAlchemyProjectRepository.update`: overwrite the listed columns (note:
`profile_id`, `created_by` and `is_active` are not written); raise `ValueError`
if no row has the project's id. -/
def ProjectRepo.update (s : Store) (p : Project) : Except DomainError (Project × Store) :=
  match updateFirst s.projects (fun m => m.id == p.id)
      (fun m => { m with
        title := p.title, category := p.category, description := p.description,
        thumbnail_url := p.thumbnail_url, live_url := p.live_url,
        repo_url := p.repo_url, featured := p.featured,
        work_experience_id := p.work_experience_id,
        updated_at := p.updated_at, updated_by := p.updated_by }) with
  | (some m, l) => .ok (m, { s with projects := l })
  | (none, _) => .error (.valueError ("Project with id " ++ optIdStr p.id ++ " not found"))

/-- `SqlAlchemyProjectRepository.delete`: soft delete by id. -/
def ProjectRepo.delete (s : Store) (project_id : Nat) (deleted_by : Nat) (now : DateTime) :
    Bool × Store :=
  match updateFirst s.projects (fun m => m.id == some project_id)
      (fun m => { m with is_active := false, updated_at := some now,
                         updated_by := some deleted_by }) with
  | (some _, l) => (true, { s with projects := l })
  | (none, _) => (false, s)

/-- `SqlAlchemyTechnologyRepository.get_by_id` (active rows only). -/
def TechnologyRepo.get_by_id (s : Store) (tech_id : Nat) : Option Technology :=
  s.technologies.find? (fun m => m.id == some tech_id && m.is_active)

/-- `SqlAlchemyTechnologyRepository.get_all_by_profile_id`
(active rows of the profile, ordered by name ascending). -/
def TechnologyRepo.get_all_by_profile_id (s : Store) (profile_id : Nat) : List Technology :=
  ((s.technologies.filter (fun m => m.profile_id == profile_id && m.is_active)).insertionSort
    (fun a b => nameLe a.name b.name = true))

/-- `SqlAlchemyTechnologyRepository.save`. -/
def TechnologyRepo.save (s : Store) (t : Technology) : Technology × Store :=
  let row := { t with id := some s.next_id }
  (row, { s with technologies := s.technologies ++ [row], next_id := s.next_id + 1 })

/-- `SqlAlchemyTechnologyRepository.update`: overwrite the listed columns
(note: `created_by` and `is_active` are not written); raise `ValueError` if no
row has the technology's id. -/
def TechnologyRepo.update (s : Store) (t : Technology) : Except DomainError (Technology × Store) :=
  match updateFirst s.technologies (fun m => m.id == t.id)
      (fun m => { m with
        profile_id := t.profile_id, name := t.name, category := t.category,
        icon_url := t.icon_url, updated_at := t.updated_at,
        updated_by := t.updated_by }) with
  | (some m, l) => .ok (m, { s with technologies := l })
  | (none, _) => .error (.valueError ("Technology with id " ++ optIdStr t.id ++ " not found"))

/-- `SqlAlchemyTechnologyRepository.delete`: soft delete by id. -/
def TechnologyRepo.delete (s : Store) (tech_id : Nat) (deleted_by : Nat) (now : DateTime) :
    Bool × Store :=
  match updateFirst s.technologies (fun m => m.id == some tech_id)
      (fun m => { m with is_active := false, updated_at := some now,
                         updated_by := some deleted_by }) with
  | (some _, l) => (true, { s with technologies := l })
  | (none, _) => (false, s)

/-- `SqlAlchemySocialRepository.get_by_id` (active rows only). -/
def SocialRepo.get_by_id (s : Store) (social_id : Nat) : Option Social :=
  s.socials.find? (fun m => m.id == some social_id && m.is_active)

/-- `SqlAlchemySocialRepository.get_all_by_profile_id`
(active rows of the profile, ordered by `order` ascending). -/
def SocialRepo.get_all_by_profile_id (s : Store) (profile_id : Nat) : List Social :=
  ((s.socials.filter (fun m => m.profile_id == profile_id && m.is_active)).insertionSort
    (fun a b => a.sort_order ≤ b.sort_order))

/-- `SqlAlchemySocialRepository.save`. -/
def SocialRepo.save (s : Store) (so : Social) : Social × Store :=
  let row := { so with id := some s.next_id }
  (row, { s with socials := s.socials ++ [row], next_id := s.next_id + 1 })

/-- `SqlAlchemySocialRepository.update`: overwrite the listed columns (note:
`created_by` and `is_active` are not written); raise `ValueError` if no row
has the social's id. -/
def SocialRepo.update (s : Store) (so : Social) : Except DomainError (Social × Store) :=
  match updateFirst s.socials (fun m => m.id == so.id)
      (fun m => { m with
        profile_id := so.profile_id, platform := so.platform, url := so.url,
        icon_name := so.icon_name, sort_order := so.sort_order,
        updated_at := so.updated_at, updated_by := so.updated_by }) with
  | (some m, l) => .ok (m, { s with socials := l })
  | (none, _) => .error (.valueError ("Social with id " ++ optIdStr so.id ++ " not found"))

/-- `SqlAlchemySocialRepository.delete`: soft delete by id. -/
def SocialRepo.delete (s : Store) (social_id : Nat) (deleted_by : Nat) (now : DateTime) :
    Bool × Store :=
  match updateFirst s.socials (fun m => m.id == some social_id)
      (fun m => { m with is_active := false, updated_at := some now,
                         updated_by := some deleted_by }) with
  | (some _, l) => (true, { s with socials := l })
  | (none, _) => (false, s)

/-- `SqlAlchemyProjectTechRepository.get_technologies_by_project_id`
(tech ids of the active association rows of the project). -/
def ProjectTechRepo.get_technologies_by_project_id (s : Store) (project_id : Nat) : List Nat :=
  (s.project_techs.filter (fun m => m.project_id == project_id && m.is_active)).map
    (fun m => m.tech_id)

/-- `SqlAlchemyProjectTechRepository.save`: insert the association row
(composite key, no id column). -/
def ProjectTechRepo.save (s : Store) (pt : ProjectTech) : ProjectTech × Store :=
  (pt, { s with project_techs := s.project_techs ++ [pt] })

/-- `SqlAlchemyProjectTechRepository.delete_by_project_id`: soft delete every
active association row of the project. -/
def ProjectTechRepo.delete_by_project_id (s : Store) (project_id : Nat) (now : DateTime) :
    Bool × Store :=
  (true, { s with project_techs :=
    s.project_techs.map (fun m =>
      if m.project_id == project_id && m.is_active
      then { m with is_active := false, updated_at := some now } else m) })

/-- `SqlAlchemyProjectPreviewRepository.get_by_project_id`
(active rows of the project, ordered by `order` ascending). -/
def ProjectPreviewRepo.get_by_project_id (s : Store) (project_id : Nat) : List ProjectPreview :=
  ((s.project_previews.filter (fun m => m.project_id == project_id && m.is_active)).insertionSort
    (fun a b => a.sort_order ≤ b.sort_order))

/-- `SqlAlchemyProjectPreviewRepository.save`. -/
def ProjectPreviewRepo.save (s : Store) (pv : ProjectPreview) : ProjectPreview × Store :=
  let row := { pv with id := some s.next_id }
  (row, { s with project_previews := s.project_previews ++ [row], next_id := s.next_id + 1 })

/-- `SqlAlchemyProjectPreviewRepository.delete`: soft delete by id (no
`deleted_by` argument in the source). -/
def ProjectPreviewRepo.delete (s : Store) (preview_id : Nat) (now : DateTime) : Bool × Store :=
  match updateFirst s.project_previews (fun m => m.id == some preview_id)
      (fun m => { m with is_active := false, updated_at := some now }) with
  | (some _, l) => (true, { s with project_previews := l })
  | (none, _) => (false, s)

/-! ## Service layer (`src/application/services/*.py`) -/

/-- Outcome of a service call: either a value or a raised `DomainError`, in
both cases together with the store as it stands when the call ends (an
exception after earlier commits keeps those commits). -/
inductive Res (α : Type) where
  | ok : α → Store → Res α
  | err : DomainError → Store → Res α
deriving Repr, DecidableEq

/-- `true` exactly when the result is a raised `UnauthorizedAccessError`. -/
def Res.unauthorized {α : Type} : Res α → Bool
  | .err (.unauthorizedAccess _) _ => true
  | _ => false

/-- The `{"access_token": ..., "token_type": "bearer"}` dict returned by
`AuthService.login_user`. -/
structure TokenResponse where
  access_token : String
  token_type : String
deriving Repr, DecidableEq

/-- The claims dict passed to `create_access_token`. -/
structure TokenData where
  sub : String
  role : String
deriving Repr, DecidableEq

/-- `AuthService.register_user`. The password hasher port and the
`SUPERADMIN_EMAIL` environment variable are passed as parameters. -/
def AuthService.register_user (s : Store) (username email password : String)
    (hash : String → String) (superadmin_email : String) (now : DateTime) : Res User :=
  match UserRepo.get_by_email s email with
  | some _ => .err (.userAlreadyExists ("El email " ++ email ++ " ya está registrado.")) s
  | none =>
    match UserRepo.get_by_username s username with
    | some _ => .err (.userAlreadyExists ("El username " ++ username ++ " ya está registrado.")) s
    | none =>
      let hashed_password := hash password
      let user_role : UserRole := if email = superadmin_email then .superadmin else .admin
      match User.validate
          { username := username, email := email, password_hash := hashed_password,
            role := user_role, id := none, last_login := none, created_at := now,
            updated_at := none, created_by := none, updated_by := none,
            is_active := true } with
      | .error e => .err e s
      | .ok new_user =>
        let r := UserRepo.save s new_user
        .ok r.1 r.2

/-- `AuthService.login_user`. The hasher's `verify` port and the token
manager's `create_access_token` port are passed as parameters. A failed login
returns the sentinel `none` inside a successful `Res`, not an error. -/
def AuthService.login_user (s : Store) (email password : String)
    (verify : String → String → Bool) (create_access_token : TokenData → String)
    (now : DateTime) : Res (Option TokenResponse) :=
  match UserRepo.get_by_email s email with
  | none => .ok none s
  | some user =>
    if ¬ verify password user.password_hash then .ok none s
    else
      let user := { user with last_login := some now }
      let r := UserRepo.update s user
      .ok (some { access_token := create_access_token { sub := user.email, role := user.role.value },
                  token_type := "bearer" }) r.2

/-! ### ClientService -/

/-- `ClientService._get_my_profile`. -/
def ClientService.get_my_profile (s : Store) (user_id : Nat) : Except DomainError Profile :=
  match ProfileRepo.get_by_user_id s user_id with
  | none => .error (.domainException "El usuario no tiene un perfil creado.")
  | some profile => .ok profile

/-- `ClientService._verify_client_ownership`: re-fetch the caller's profile and
compare the stored resource's `profile_id` with it. -/
def ClientService.verify_client_ownership (s : Store) (user_id : Nat) (client : Client) :
    Except DomainError Unit :=
  match ClientService.get_my_profile s user_id with
  | .error e => .error e
  | .ok profile =>
    if some client.profile_id ≠ profile.id then
      .error (.unauthorizedAccess "No tienes permiso para acceder a este cliente.")
    else .ok ()

/-- `ClientService.create_client`. -/
def ClientService.create_client (s : Store) (user_id : Nat) (name : String)
    (company feedback client_photo_url project_link : Option String) :
    Res Client :=
  match ClientService.get_my_profile s user_id with
  | .error e => .err e s
  | .ok profile =>
    match Client.validate
        { profile_id := profile.id.getD 0, name := name, company := company,
          feedback := feedback, client_photo_url := client_photo_url,
          project_link := project_link, id := none, updated_at := none,
          created_by := some user_id, updated_by := none, is_active := true } with
    | .error e => .err e s
    | .ok new_client =>
      let r := ClientRepo.save s new_client
      .ok r.1 r.2

/-- `ClientService.get_all_my_clients`. -/
def ClientService.get_all_my_clients (s : Store) (user_id : Nat) : Res (List Client) :=
  match ClientService.get_my_profile s user_id with
  | .error e => .err e s
  | .ok profile => .ok (ClientRepo.get_all_by_profile_id s (profile.id.getD 0)) s

/-- `ClientService.get_client_by_id`. -/
def ClientService.get_client_by_id (s : Store) (user_id client_id : Nat) : Res Client :=
  match ClientRepo.get_by_id s client_id with
  | none => .err (.clientNotFound "Cliente no encontrado.") s
  | some client =>
    match ClientService.verify_client_ownership s user_id client with
    | .error e => .err e s
    | .ok _ => .ok client s

/-- `ClientService.update_client`: apply-if-not-None merge over the existing
row, stamp the audit fields, persist through the repository. -/
def ClientService.update_client (s : Store) (user_id client_id : Nat)
    (name company feedback client_photo_url project_link : Option String)
    (is_active : Option Bool) (now : DateTime) : Res Client :=
  match ClientRepo.get_by_id s client_id with
  | none => .err (.clientNotFound "Cliente no encontrado.") s
  | some existing =>
    match ClientService.verify_client_ownership s user_id existing with
    | .error e => .err e s
    | .ok _ =>
      match Client.validate
          { id := existing.id, profile_id := existing.profile_id,
            name := name.getD existing.name, company := company.orElse (fun _ => existing.company),
            feedback := feedback.orElse (fun _ => existing.feedback),
            client_photo_url := client_photo_url.orElse (fun _ => existing.client_photo_url),
            project_link := project_link.orElse (fun _ => existing.project_link),
            updated_at := some now, created_by := existing.created_by,
            updated_by := some user_id, is_active := is_active.getD existing.is_active } with
      | .error e => .err e s
      | .ok updated =>
        match ClientRepo.update s updated with
        | .error e => .err e s
        | .ok (c, s') => .ok c s'

/-- `ClientService.delete_client`. -/
def ClientService.delete_client (s : Store) (user_id client_id : Nat) (now : DateTime) :
    Res Bool :=
  match ClientRepo.get_by_id s client_id with
  | none => .err (.clientNotFound "Cliente no encontrado.") s
  | some existing =>
    match ClientService.verify_client_ownership s user_id existing with
    | .error e => .err e s
    | .ok _ =>
      let r := ClientRepo.delete s client_id user_id now
      .ok r.1 r.2

/-! ### WorkExperienceService -/

/-- `WorkExperienceService._verify_profile_ownership`: note that, unlike the
other services, a missing caller profile raises `UnauthorizedAccessError`
here, not the generic "no profile" `DomainException`. -/
def WorkExperienceService.verify_profile_ownership (s : Store) (user_id profile_id : Nat) :
    Except DomainError Unit :=
  match ProfileRepo.get_by_user_id s user_id with
  | none => .error (.unauthorizedAccess "No tienes permiso para acceder a este perfil.")
  | some profile =>
    if profile.id ≠ some profile_id then
      .error (.unauthorizedAccess "No tienes permiso para acceder a este perfil.")
    else .ok ()

/-- `WorkExperienceService.create_work_experience`. -/
def WorkExperienceService.create_work_experience (s : Store) (user_id : Nat)
    (job_title company : String) (start_date : PyDate) (location : Option String)
    (end_date : Option PyDate) (description : Option String) :
    Res WorkExperience :=
  match ProfileRepo.get_by_user_id s user_id with
  | none => .err (.domainException "El usuario no tiene un perfil creado.") s
  | some profile =>
    match WorkExperience.validate
        { profile_id := profile.id.getD 0, job_title := job_title, company := company,
          location := location, start_date := start_date, end_date := end_date,
          description := description, id := none, updated_at := none,
          created_by := some user_id, updated_by := none, is_active := true } with
    | .error e => .err e s
    | .ok new_work_experience =>
      let r := WorkExperienceRepo.save s new_work_experience
      .ok r.1 r.2

/-- `WorkExperienceService.get_all_my_work_experiences`. -/
def WorkExperienceService.get_all_my_work_experiences (s : Store) (user_id : Nat) :
    Res (List WorkExperience) :=
  match ProfileRepo.get_by_user_id s user_id with
  | none => .err (.domainException "El usuario no tiene un perfil creado.") s
  | some profile => .ok (WorkExperienceRepo.get_all_by_profile_id s (profile.id.getD 0)) s

/-- `WorkExperienceService.get_work_experience_by_id`. -/
def WorkExperienceService.get_work_experience_by_id (s : Store) (user_id work_experience_id : Nat) :
    Res WorkExperience :=
  match WorkExperienceRepo.get_by_id s work_experience_id with
  | none => .err (.workExperienceNotFound "Experiencia laboral no encontrada.") s
  | some work_experience =>
    match WorkExperienceService.verify_profile_ownership s user_id work_experience.profile_id with
    | .error e => .err e s
    | .ok _ => .ok work_experience s

/-- `WorkExperienceService.update_work_experience`. -/
def WorkExperienceService.update_work_experience (s : Store) (user_id work_experience_id : Nat)
    (job_title company location : Option String) (start_date end_date : Option PyDate)
    (description : Option String) (now : DateTime) : Res WorkExperience :=
  match WorkExperienceRepo.get_by_id s work_experience_id with
  | none => .err (.workExperienceNotFound "Experiencia laboral no encontrada.") s
  | some existing =>
    match WorkExperienceService.verify_profile_ownership s user_id existing.profile_id with
    | .error e => .err e s
    | .ok _ =>
      match WorkExperience.validate
          { id := existing.id, profile_id := existing.profile_id,
            job_title := job_title.getD existing.job_title,
            company := company.getD existing.company,
            location := location.orElse (fun _ => existing.location),
            start_date := start_date.getD existing.start_date,
            end_date := end_date.orElse (fun _ => existing.end_date),
            description := description.orElse (fun _ => existing.description),
            updated_at := some now, created_by := existing.created_by,
            updated_by := some user_id, is_active := existing.is_active } with
      | .error e => .err e s
      | .ok updated =>
        let r := WorkExperienceRepo.update s updated
        .ok r.1 r.2

/-- `WorkExperienceService.delete_work_experience`. -/
def WorkExperienceService.delete_work_experience (s : Store) (user_id work_experience_id : Nat)
    (now : DateTime) : Res Bool :=
  match WorkExperienceRepo.get_by_id s work_experience_id with
  | none => .err (.workExperienceNotFound "Experiencia laboral no encontrada.") s
  | some existing =>
    match WorkExperienceService.verify_profile_ownership s user_id existing.profile_id with
    | .error e => .err e s
    | .ok _ =>
      let r := WorkExperienceRepo.delete s work_experience_id user_id now
      .ok r.1 r.2

/-! ### ProjectService -/

/-- A preview dict as accepted by the project endpoints:
`preview["image_url"]`, `preview.get("caption")`, `preview.get("order", 0)`. -/
structure PreviewIn where
  image_url : String
  caption : Option String
  sort_order : Option Nat
deriving Repr, DecidableEq

/-- `ProjectService._get_my_profile`. -/
def ProjectService.get_my_profile (s : Store) (user_id : Nat) : Except DomainError Profile :=
  match ProfileRepo.get_by_user_id s user_id with
  | none => .error (.domainException "El usuario no tiene un perfil creado.")
  | some profile => .ok profile

/-- `ProjectService._verify_project_ownership`. -/
def ProjectService.verify_project_ownership (s : Store) (user_id : Nat) (project : Project) :
    Except DomainError Unit :=
  match ProjectService.get_my_profile s user_id with
  | .error e => .error e
  | .ok profile =>
    if some project.profile_id ≠ profile.id then
      .error (.unauthorizedAccess "No tienes permiso para acceder a este proyecto.")
    else .ok ()

/-- `ProjectService._verify_work_experience_ownership`: a supplied
`work_experience_id` must exist and belong to the caller's own profile. -/
def ProjectService.verify_work_experience_ownership (s : Store) (user_id : Nat)
    (work_experience_id : Option Nat) : Except DomainError Unit :=
  match work_experience_id with
  | none => .ok ()
  | some wid =>
    match WorkExperienceRepo.get_by_id s wid with
    | none => .error (.domainException "La experiencia laboral no existe.")
    | some work_experience =>
      match ProjectService.get_my_profile s user_id with
      | .error e => .error e
      | .ok profile =>
        if some work_experience.profile_id ≠ profile.id then
          .error (.unauthorizedAccess "No tienes permiso para usar esta experiencia laboral.")
        else .ok ()

/-- The `for tech_id in technology_ids: project_tech_repository.save(...)`
loop shared by project create and update. -/
def ProjectService.saveTechList (s : Store) (project_id user_id : Nat) (l : List Nat) : Store :=
  l.foldl (fun st tech_id =>
    (ProjectTechRepo.save st
      { project_id := project_id, tech_id := tech_id, updated_at := none,
        created_by := some user_id, updated_by := none, is_active := true }).2) s

/-- The `for preview in previews: project_preview_repository.save(...)` loop
shared by project create and update. A `ProjectPreview.__post_init__` failure
aborts the loop, keeping the rows saved so far. -/
def ProjectService.savePreviewList (s : Store) (project_id user_id : Nat) (l : List PreviewIn) :
    Res Unit :=
  match l with
  | [] => .ok () s
  | d :: rest =>
    match ProjectPreview.validate
        { project_id := project_id, image_url := d.image_url, caption := d.caption,
          sort_order := d.sort_order.getD 0, id := none, updated_at := none,
          created_by := some user_id, updated_by := none, is_active := true } with
    | .error e => .err e s
    | .ok pv =>
      ProjectService.savePreviewList (ProjectPreviewRepo.save s pv).2 project_id user_id rest

/-- The `for prev in existing_previews: project_preview_repository.delete(prev.id)`
loop in `update_project`. -/
def ProjectService.deletePreviewList (s : Store) (l : List ProjectPreview) (now : DateTime) :
    Store :=
  l.foldl (fun st pv => (ProjectPreviewRepo.delete st (pv.id.getD 0) now).2) s

/-- `ProjectService.create_project`. -/
def ProjectService.create_project (s : Store) (user_id : Nat) (title : String)
    (category : ProjectCategory) (description thumbnail_url live_url repo_url : Option String)
    (featured : Bool) (work_experience_id : Option Nat) (technology_ids : Option (List Nat))
    (previews : Option (List PreviewIn)) : Res Project :=
  match ProjectService.get_my_profile s user_id with
  | .error e => .err e s
  | .ok profile =>
    match ProjectService.verify_work_experience_ownership s user_id work_experience_id with
    | .error e => .err e s
    | .ok _ =>
      match Project.validate
          { profile_id := profile.id.getD 0, title := title, category := category,
            description := description, thumbnail_url := thumbnail_url,
            live_url := live_url, repo_url := repo_url, featured := featured,
            work_experience_id := work_experience_id, id := none, updated_at := none,
            created_by := some user_id, updated_by := none, is_active := true } with
      | .error e => .err e s
      | .ok new_project =>
        let r := ProjectRepo.save s new_project
        let project := r.1
        let s1 := ProjectService.saveTechList r.2 (project.id.getD 0) user_id
          (technology_ids.getD [])
        match ProjectService.savePreviewList s1 (project.id.getD 0) user_id
            (previews.getD []) with
        | .err e s2 => .err e s2
        | .ok _ s2 => .ok project s2

/-- `ProjectService.get_all_my_projects`. -/
def ProjectService.get_all_my_projects (s : Store) (user_id : Nat) : Res (List Project) :=
  match ProjectService.get_my_profile s user_id with
  | .error e => .err e s
  | .ok profile => .ok (ProjectRepo.get_all_by_profile_id s (profile.id.getD 0)) s

/-- `ProjectService.get_featured_my_projects`. -/
def ProjectService.get_featured_my_projects (s : Store) (user_id : Nat) : Res (List Project) :=
  match ProjectService.get_my_profile s user_id with
  | .error e => .err e s
  | .ok profile => .ok (ProjectRepo.get_featured_by_profile_id s (profile.id.getD 0)) s

/-- `ProjectService.get_project_by_id`. -/
def ProjectService.get_project_by_id (s : Store) (user_id project_id : Nat) : Res Project :=
  match ProjectRepo.get_by_id s project_id with
  | none => .err (.projectNotFound "Proyecto no encontrado.") s
  | some project =>
    match ProjectService.verify_project_ownership s user_id project with
    | .error e => .err e s
    | .ok _ => .ok project s

/-- `ProjectService.update_project`: apply-if-not-None merge on the project row
itself, then replace-all semantics on the technology associations and the
preview images whenever the corresponding list argument is not `None`. -/
def ProjectService.update_project (s : Store) (user_id project_id : Nat)
    (title : Option String) (category : Option ProjectCategory)
    (description thumbnail_url live_url repo_url : Option String)
    (featured : Option Bool) (work_experience_id : Option Nat)
    (technology_ids : Option (List Nat)) (previews : Option (List PreviewIn))
    (now : DateTime) : Res Project :=
  match ProjectRepo.get_by_id s project_id with
  | none => .err (.projectNotFound "Proyecto no encontrado.") s
  | some existing =>
    match ProjectService.verify_project_ownership s user_id existing with
    | .error e => .err e s
    | .ok _ =>
      match ProjectService.verify_work_experience_ownership s user_id work_experience_id with
      | .error e => .err e s
      | .ok _ =>
        match Project.validate
            { id := existing.id, profile_id := existing.profile_id,
              title := title.getD existing.title,
              category := category.getD existing.category,
              description := description.orElse (fun _ => existing.description),
              thumbnail_url := thumbnail_url.orElse (fun _ => existing.thumbnail_url),
              live_url := live_url.orElse (fun _ => existing.live_url),
              repo_url := repo_url.orElse (fun _ => existing.repo_url),
              featured := featured.getD existing.featured,
              work_experience_id := work_experience_id.orElse
                (fun _ => existing.work_experience_id),
              updated_at := some now, created_by := existing.created_by,
              updated_by := some user_id, is_active := existing.is_active } with
        | .error e => .err e s
        | .ok updated =>
          match ProjectRepo.update s updated with
          | .error e => .err e s
          | .ok (project, s1) =>
            let s2 :=
              match technology_ids with
              | none => s1
              | some tech_ids =>
                ProjectService.saveTechList
                  (ProjectTechRepo.delete_by_project_id s1 (project.id.getD 0) now).2
                  (project.id.getD 0) user_id tech_ids
            match previews with
            | none => .ok project s2
            | some pvs =>
              let existing_previews := ProjectPreviewRepo.get_by_project_id s2 (project.id.getD 0)
              let s3 := ProjectService.deletePreviewList s2 existing_previews now
              match ProjectService.savePreviewList s3 (project.id.getD 0) user_id pvs with
              | .err e s4 => .err e s4
              | .ok _ s4 => .ok project s4

/-- `ProjectService.delete_project`. -/
def ProjectService.delete_project (s : Store) (user_id project_id : Nat) (now : DateTime) :
    Res Bool :=
  match ProjectRepo.get_by_id s project_id with
  | none => .err (.projectNotFound "Proyecto no encontrado.") s
  | some existing =>
    match ProjectService.verify_project_ownership s user_id existing with
    | .error e => .err e s
    | .ok _ =>
      let r := ProjectRepo.delete s project_id user_id now
      .ok r.1 r.2

/-! ### TechnologyService -/

/-- `TechnologyService._get_my_profile`. -/
def TechnologyService.get_my_profile (s : Store) (user_id : Nat) : Except DomainError Profile :=
  match ProfileRepo.get_by_user_id s user_id with
  | none => .error (.domainException "El usuario no tiene un perfil creado.")
  | some profile => .ok profile

/-- `TechnologyService._verify_technology_ownership`. -/
def TechnologyService.verify_technology_ownership (s : Store) (user_id : Nat) (t : Technology) :
    Except DomainError Unit :=
  match TechnologyService.get_my_profile s user_id with
  | .error e => .error e
  | .ok profile =>
    if some t.profile_id ≠ profile.id then
      .error (.unauthorizedAccess "No tienes permiso para acceder a esta tecnología.")
    else .ok ()

/-- `TechnologyService.create_technology`. -/
def TechnologyService.create_technology (s : Store) (user_id : Nat) (name : String)
    (category : TechnologyCategory) (icon_url : Option String) : Res Technology :=
  match TechnologyService.get_my_profile s user_id with
  | .error e => .err e s
  | .ok profile =>
    match Technology.validate
        { profile_id := profile.id.getD 0, name := name, category := category,
          icon_url := icon_url, id := none, updated_at := none,
          created_by := some user_id, updated_by := none, is_active := true } with
    | .error e => .err e s
    | .ok new_technology =>
      let r := TechnologyRepo.save s new_technology
      .ok r.1 r.2

/-- `TechnologyService.get_all_my_technologies`. -/
def TechnologyService.get_all_my_technologies (s : Store) (user_id : Nat) :
    Res (List Technology) :=
  match TechnologyService.get_my_profile s user_id with
  | .error e => .err e s
  | .ok profile => .ok (TechnologyRepo.get_all_by_profile_id s (profile.id.getD 0)) s

/-- `TechnologyService.get_technology_by_id`. -/
def TechnologyService.get_technology_by_id (s : Store) (user_id tech_id : Nat) : Res Technology :=
  match TechnologyRepo.get_by_id s tech_id with
  | none => .err (.technologyNotFound "Tecnología no encontrada.") s
  | some technology =>
    match TechnologyService.verify_technology_ownership s user_id technology with
    | .error e => .err e s
    | .ok _ => .ok technology s

/-- `TechnologyService.update_technology`. -/
def TechnologyService.update_technology (s : Store) (user_id tech_id : Nat)
    (name : Option String) (category : Option TechnologyCategory)
    (icon_url : Option String) (is_active : Option Bool) (now : DateTime) : Res Technology :=
  match TechnologyRepo.get_by_id s tech_id with
  | none => .err (.technologyNotFound "Tecnología no encontrada.") s
  | some existing =>
    match TechnologyService.verify_technology_ownership s user_id existing with
    | .error e => .err e s
    | .ok _ =>
      match Technology.validate
          { id := existing.id, profile_id := existing.profile_id,
            name := name.getD existing.name,
            category := category.getD existing.category,
            icon_url := icon_url.orElse (fun _ => existing.icon_url),
            updated_at := some now, created_by := existing.created_by,
            updated_by := some user_id, is_active := is_active.getD existing.is_active } with
      | .error e => .err e s
      | .ok updated =>
        match TechnologyRepo.update s updated with
        | .error e => .err e s
        | .ok (t, s') => .ok t s'

/-- `TechnologyService.delete_technology`. -/
def TechnologyService.delete_technology (s : Store) (user_id tech_id : Nat) (now : DateTime) :
    Res Bool :=
  match TechnologyRepo.get_by_id s tech_id with
  | none => .err (.technologyNotFound "Tecnología no encontrada.") s
  | some existing =>
    match TechnologyService.verify_technology_ownership s user_id existing with
    | .error e => .err e s
    | .ok _ =>
      let r := TechnologyRepo.delete s tech_id user_id now
      .ok r.1 r.2

/-! ### SocialService -/

/-- `SocialService._get_my_profile`. -/
def SocialService.get_my_profile (s : Store) (user_id : Nat) : Except DomainError Profile :=
  match ProfileRepo.get_by_user_id s user_id with
  | none => .error (.domainException "El usuario no tiene un perfil creado.")
  | some profile => .ok profile

/-- `SocialService._verify_social_ownership`. -/
def SocialService.verify_social_ownership (s : Store) (user_id : Nat) (so : Social) :
    Except DomainError Unit :=
  match SocialService.get_my_profile s user_id with
  | .error e => .error e
  | .ok profile =>
    if some so.profile_id ≠ profile.id then
      .error (.unauthorizedAccess "No tienes permiso para acceder a este social link.")
    else .ok ()

/-- `SocialService.create_social`. -/
def SocialService.create_social (s : Store) (user_id : Nat) (platform url : String)
    (icon_name : Option String) (sort_order : Nat) : Res Social :=
  match SocialService.get_my_profile s user_id with
  | .error e => .err e s
  | .ok profile =>
    match Social.validate
        { profile_id := profile.id.getD 0, platform := platform, url := url,
          icon_name := icon_name, sort_order := sort_order, id := none,
          updated_at := none, created_by := some user_id, updated_by := none,
          is_active := true } with
    | .error e => .err e s
    | .ok new_social =>
      let r := SocialRepo.save s new_social
      .ok r.1 r.2

/-- `SocialService.get_all_my_socials`. -/
def SocialService.get_all_my_socials (s : Store) (user_id : Nat) : Res (List Social) :=
  match SocialService.get_my_profile s user_id with
  | .error e => .err e s
  | .ok profile => .ok (SocialRepo.get_all_by_profile_id s (profile.id.getD 0)) s

/-- `SocialService.get_social_by_id`. -/
def SocialService.get_social_by_id (s : Store) (user_id social_id : Nat) : Res Social :=
  match SocialRepo.get_by_id s social_id with
  | none => .err (.socialNotFound "Social link no encontrado.") s
  | some social =>
    match SocialService.verify_social_ownership s user_id social with
    | .error e => .err e s
    | .ok _ => .ok social s

/-- `SocialService.update_social`. -/
def SocialService.update_social (s : Store) (user_id social_id : Nat)
    (platform url : Option String) (icon_name : Option String)
    (sort_order : Option Nat) (is_active : Option Bool) (now : DateTime) : Res Social :=
  match SocialRepo.get_by_id s social_id with
  | none => .err (.socialNotFound "Social link no encontrado.") s
  | some existing =>
    match SocialService.verify_social_ownership s user_id existing with
    | .error e => .err e s
    | .ok _ =>
      match Social.validate
          { id := existing.id, profile_id := existing.profile_id,
            platform := platform.getD existing.platform,
            url := url.getD existing.url,
            icon_name := icon_name.orElse (fun _ => existing.icon_name),
            sort_order := sort_order.getD existing.sort_order,
            updated_at := some now, created_by := existing.created_by,
            updated_by := some user_id, is_active := is_active.getD existing.is_active } with
      | .error e => .err e s
      | .ok updated =>
        match SocialRepo.update s updated with
        | .error e => .err e s
        | .ok (so, s') => .ok so s'

/-- `SocialService.delete_social`. -/
def SocialService.delete_social (s : Store) (user_id social_id : Nat) (now : DateTime) :
    Res Bool :=
  match SocialRepo.get_by_id s social_id with
  | none => .err (.socialNotFound "Social link no encontrado.") s
  | some existing =>
    match SocialService.verify_social_ownership s user_id existing with
    | .error e => .err e s
    | .ok _ =>
      let r := SocialRepo.delete s social_id user_id now
      .ok r.1 r.2

/-! ## Generic lemmas about tables, `find?` and `updateFirst` -/

/-- In a table whose id column is duplicate-free, two rows with the same id
are the same row. -/
theorem map_nodup_inj {α : Type} {l : List α} {getId : α → Option Nat}
    (h : (l.map getId).Nodup) :
    ∀ a ∈ l, ∀ b ∈ l, getId a = getId b → a = b := by
  induction l with
  | nil => intro a ha; simp at ha
  | cons x xs ih =>
    simp only [List.map_cons, List.nodup_cons] at h
    intro a ha b hb hab
    rcases List.mem_cons.1 ha with rfl | ha' <;>
      rcases List.mem_cons.1 hb with rfl | hb'
    · rfl
    · exact absurd (by rw [hab]; exact List.mem_map_of_mem getId hb') h.1
    · exact absurd (by rw [← hab]; exact List.mem_map_of_mem getId ha') h.1
    · exact ih h.2 a ha' b hb' hab

/-- A duplicate-free id column means no two row positions can both carry a
given id `i`. -/
theorem pairwise_not_both {α : Type} {l : List α} {getId : α → Option Nat}
    (h : (l.map getId).Nodup) (i : Nat) :
    l.Pairwise (fun a b => ¬((getId a == some i) = true ∧ (getId b == some i) = true)) := by
  have h' : l.Pairwise (fun a b => getId a ≠ getId b) := (List.pairwise_map).1 h
  exact h'.imp (fun hne ⟨ha, hb⟩ => hne (by rw [beq_iff_eq.mp ha, beq_iff_eq.mp hb]))

/-- The element returned by `updateFirst` is the patched first match. -/
theorem updateFirst_fst {α : Type} (l : List α) (p : α → Bool) (f : α → α) :
    (updateFirst l p f).1 = (l.find? p).map f := by
  induction l with
  | nil => rfl
  | cons x xs ih =>
    by_cases hp : p x
    · simp [updateFirst, List.find?_cons, hp]
    · simp [updateFirst, List.find?_cons, hp, ih]

/-- When at most one position of the list matches `p`, patching the first
match is the same as patching every match. -/
theorem updateFirst_snd_eq_map {α : Type} {l : List α} {p : α → Bool} {f : α → α}
    (hpw : l.Pairwise (fun a b => ¬(p a = true ∧ p b = true))) :
    (updateFirst l p f).2 = l.map (fun y => if p y then f y else y) := by
  induction l with
  | nil => rfl
  | cons x xs ih =>
    rcases List.pairwise_cons.1 hpw with ⟨hx, hxs⟩
    by_cases hp : p x
    · have : xs.map (fun y => if p y then f y else y) = xs := by
        rw [show xs.map (fun y => if p y then f y else y) = xs.map id from
          List.map_congr_left (fun y hy => by
            have : ¬ p y = true := fun hpy => hx y hy ⟨hp, hpy⟩
            simp [this]), List.map_id]
      simp [updateFirst, hp, this]
    · simp [updateFirst, hp, ih hxs]

/-- In a table with a duplicate-free id column, looking up a present id finds
exactly that row. -/
theorem find?_id_eq_of_nodup {α : Type} {l : List α} {getId : α → Option Nat}
    (h : (l.map getId).Nodup) {c : α} {i : Nat}
    (hmem : c ∈ l) (hid : getId c = some i) :
    l.find? (fun m => getId m == some i) = some c := by
  induction l with
  | nil => simp at hmem
  | cons x xs ih =>
    simp only [List.map_cons, List.nodup_cons] at h
    by_cases hx : (getId x == some i) = true
    · have hx' : (fun m => getId m == some i) x = true := hx
      rw [List.find?_cons_of_pos xs hx']
      rcases List.mem_cons.1 hmem with rfl | hmem'
      · rfl
      · refine absurd ?_ h.1
        rw [beq_iff_eq.mp hx, ← hid]
        exact List.mem_map_of_mem getId hmem'
    · have hx' : ¬ (fun m => getId m == some i) x = true := hx
      rw [List.find?_cons_of_neg xs hx']
      rcases List.mem_cons.1 hmem with rfl | hmem'
      · exact absurd (by simp [hid]) hx
      · exact ih h.2 hmem'

/-! ## Field inventory of the entity dataclasses (for the audit sub-model) -/

/-- The entity record kinds of `src/domain/entities.py`. -/
inductive EntityKind where
  | user
  | profile
  | workExperience
  | project
  | technology
  | client
  | social
  | projectTech
  | projectPreview
deriving Repr, DecidableEq, Fintype

/-- The field names of each dataclass in `src/domain/entities.py`, transcribed
in source order. -/
def entityFields : EntityKind → List String
  | .user => ["username", "email", "password_hash", "role", "id", "last_login",
      "created_at", "updated_at", "created_by", "updated_by", "is_active"]
  | .profile => ["user_id", "name", "last_name", "email", "current_title",
      "bio_summary", "phone", "location", "photo_url", "id", "created_at",
      "updated_at", "created_by", "updated_by", "is_active"]
  | .workExperience => ["profile_id", "job_title", "company", "location",
      "start_date", "end_date", "description", "id", "updated_at", "created_by",
      "updated_by", "is_active"]
  | .project => ["profile_id", "title", "category", "description",
      "thumbnail_url", "live_url", "repo_url", "featured", "work_experience_id",
      "id", "updated_at", "created_by", "updated_by", "is_active"]
  | .technology => ["profile_id", "name", "category", "icon_url", "id",
      "updated_at", "created_by", "updated_by", "is_active"]
  | .client => ["profile_id", "name", "company", "feedback", "client_photo_url",
      "project_link", "id", "updated_at", "created_by", "updated_by", "is_active"]
  | .social => ["profile_id", "platform", "url", "icon_name", "order", "id",
      "updated_at", "created_by", "updated_by", "is_active"]
  | .projectTech => ["project_id", "tech_id", "updated_at", "created_by",
      "updated_by", "is_active"]
  | .projectPreview => ["project_id", "image_url", "caption", "order", "id",
      "updated_at", "created_by", "updated_by", "is_active"]

/-- The audit sub-model the spec ascribes to every entity. -/
def auditFields : List String :=
  ["id", "created_at", "updated_at", "created_by", "updated_by", "is_active"]

/-- C9 counterexample: the claim "every entity record carries the full audit
sub-model id/created_at/updated_at/created_by/updated_by/is_active" fails at
`WorkExperience`, whose dataclass has no `created_at` field. -/
theorem C9_audit_fields_counterexample :
    ¬ (auditFields ⊆ entityFields EntityKind.workExperience) := by
  decide

/-- C9 (amended): every entity record carries `updated_at`, `created_by`,
`updated_by` and `is_active`; all carry `id` except the composite-key join row
`ProjectTech`; only `User` and `Profile` carry `created_at`. -/
theorem C9_audit_fields_amended :
    ∀ k : EntityKind,
      (["updated_at", "created_by", "updated_by", "is_active"] ⊆ entityFields k) ∧
      (("id" ∈ entityFields k) ↔ k ≠ EntityKind.projectTech) ∧
      (("created_at" ∈ entityFields k) ↔ (k = EntityKind.user ∨ k = EntityKind.profile)) := by
  decide

/-! ## Concrete fixtures used by the witness theorems -/

/-- Fixture: user 1. -/
def userA : User :=
  { username := "alice", email := "alice@mail.com", password_hash := "pw1#h",
    role := .admin, id := some 1, last_login := none, created_at := 10,
    updated_at := none, created_by := none, updated_by := none, is_active := true }

/-- Fixture: user 2. -/
def userB : User :=
  { username := "bob", email := "bob@mail.com", password_hash := "pw2#h",
    role := .admin, id := some 2, last_login := none, created_at := 11,
    updated_at := none, created_by := none, updated_by := none, is_active := true }

/-- Fixture: profile of user 1. -/
def profileA : Profile :=
  { user_id := 1, name := "Alice", last_name := "Smith", email := "alice@mail.com",
    current_title := none, bio_summary := none, phone := none, location := none,
    photo_url := none, id := some 1, created_at := 12, updated_at := none,
    created_by := some 1, updated_by := none, is_active := true }

/-- Fixture: profile of user 2. -/
def profileB : Profile :=
  { user_id := 2, name := "Bob", last_name := "Jones", email := "bob@mail.com",
    current_title := none, bio_summary := none, phone := none, location := none,
    photo_url := none, id := some 2, created_at := 13, updated_at := none,
    created_by := some 2, updated_by := none, is_active := true }

/-- Fixture: a work experience of profile 1 (id 11). -/
def wexpA : WorkExperience :=
  { profile_id := 1, job_title := "Dev", company := "Acme", location := none,
    start_date := 100, end_date := some 200, description := none, id := some 11,
    updated_at := none, created_by := some 1, updated_by := none, is_active := true }

/-- Fixture: a work experience of profile 2 (id 21). -/
def wexpB : WorkExperience :=
  { profile_id := 2, job_title := "Ops", company := "Globex", location := none,
    start_date := 150, end_date := none, description := none, id := some 21,
    updated_at := none, created_by := some 2, updated_by := none, is_active := true }

/-- Fixture: a project of profile 1 (id 12). -/
def projectA : Project :=
  { profile_id := 1, title := "Site", category := .fullstack, description := none,
    thumbnail_url := none, live_url := none, repo_url := none, featured := false,
    work_experience_id := none, id := some 12, updated_at := none,
    created_by := some 1, updated_by := none, is_active := true }

/-- Fixture: a technology of profile 1 (id 13). -/
def technologyA : Technology :=
  { profile_id := 1, name := "Python", category := .backend, icon_url := none,
    id := some 13, updated_at := none, created_by := some 1, updated_by := none,
    is_active := true }

/-- Fixture: a client of profile 1 (id 14). -/
def clientA : Client :=
  { profile_id := 1, name := "Carol", company := none, feedback := none,
    client_photo_url := none, project_link := none, id := some 14,
    updated_at := none, created_by := some 1, updated_by := none, is_active := true }

/-- Fixture: a social link of profile 1 (id 15). -/
def socialA : Social :=
  { profile_id := 1, platform := "GitHub", url := "https://github.com/a",
    icon_name := none, sort_order := 0, id := some 15, updated_at := none,
    created_by := some 1, updated_by := none, is_active := true }

/-- Fixture: a preview image of project 12 (id 16). -/
def previewA : ProjectPreview :=
  { project_id := 12, image_url := "https://img/a.png", caption := none,
    sort_order := 0, id := some 16, updated_at := none, created_by := some 1,
    updated_by := none, is_active := true }

/-- Fixture: a technology association of project 12. -/
def projectTechA : ProjectTech :=
  { project_id := 12, tech_id := 13, updated_at := none, created_by := some 1,
    updated_by := none, is_active := true }

/-- Fixture store: two users with profiles, profile 1 owning one resource of
each kind, profile 2 owning one work experience. -/
def storeAB : Store :=
  { users := [userA, userB], profiles := [profileA, profileB],
    work_experiences := [wexpA, wexpB], projects := [projectA],
    technologies := [technologyA], clients := [clientA], socials := [socialA],
    project_techs := [projectTechA], project_previews := [previewA],
    next_id := 50 }

/-- Fixture store: empty database. -/
def storeEmpty : Store :=
  { users := [], profiles := [], work_experiences := [], projects := [],
    technologies := [], clients := [], socials := [], project_techs := [],
    project_previews := [], next_id := 1 }

/-! ## Small inversion and frame lemmas about the services -/

/-- The store a service call ends in, whether it returns or raises. -/
def Res.store {α : Type} : Res α → Store
  | .ok _ s => s
  | .err _ s => s

/-- The fresh association row inserted by the technology replace loop of
`update_project` for one supplied technology id. -/
def freshTechRow (P u tid : Nat) : ProjectTech :=
  { project_id := P, tech_id := tid, updated_at := none,
    created_by := some u, updated_by := none, is_active := true }

/-- The correspondence between a stored preview row and the input dict the
preview replace loop of `update_project` created it from. -/
def previewMatches (P u : Nat) (r : ProjectPreview) (d : PreviewIn) : Prop :=
  r.project_id = P ∧ r.image_url = d.image_url ∧ r.caption = d.caption ∧
  r.sort_order = d.sort_order.getD 0 ∧ r.created_by = some u ∧ r.is_active = true

/-- Fixture: a preview input dict for a concrete replace-all run. -/
def c3previn : PreviewIn :=
  { image_url := "https://img/b.png", caption := none, sort_order := none }

/-- Fixture: one concrete `update_project` run that replaces both the
technology associations and the previews of project 12. -/
def c3res : Res Project :=
  ProjectService.update_project storeAB 1 12 none none none none none none none none
    (some [13]) (some [c3previn]) 7

/-- The project the fixture run returns. -/
def c3proj : Project :=
  match c3res with
  | .ok p _ => p
  | .err _ _ => projectA

/-- The store the fixture run ends in. -/
def c3store : Store := c3res.store

/-- `Client.__post_init__` returns its input unchanged on success. -/
theorem client_validate_ok {c c' : Client} (h : Client.validate c = .ok c') :
    c' = c ∧ c.name ≠ "" := by
  by_cases hn : c.name = "" <;> simp [Client.validate, hn] at h
  exact ⟨h.symm, hn⟩

/-- `Technology.__post_init__` returns its input unchanged on success. -/
theorem technology_validate_ok {t t' : Technology} (h : Technology.validate t = .ok t') :
    t' = t ∧ t.name ≠ "" := by
  by_cases hn : t.name = "" <;> simp [Technology.validate, hn] at h
  exact ⟨h.symm, hn⟩

/-- `Project.__post_init__` returns its input unchanged on success. -/
theorem project_validate_ok {p p' : Project} (h : Project.validate p = .ok p') :
    p' = p ∧ p.title ≠ "" := by
  by_cases hn : p.title = "" <;> simp [Project.validate, hn] at h
  exact ⟨h.symm, hn⟩

/-- `Social.__post_init__` returns its input unchanged on success. -/
theorem social_validate_ok {s s' : Social} (h : Social.validate s = .ok s') :
    s' = s ∧ s.platform ≠ "" ∧ s.url ≠ "" := by
  by_cases hn : s.platform = "" ∨ s.url = "" <;> simp [Social.validate, hn] at h
  · push_neg at hn
    exact ⟨h.symm, hn⟩

/-- `WorkExperience.__post_init__` returns its input unchanged on success. -/
theorem work_experience_validate_ok {w w' : WorkExperience}
    (h : WorkExperience.validate w = .ok w') :
    w' = w ∧ w.job_title ≠ "" ∧ w.company ≠ "" ∧
      (∀ e, w.end_date = some e → ¬ e < w.start_date) := by
  by_cases hn : w.job_title = "" ∨ w.company = "" <;>
    simp [WorkExperience.validate, hn] at h
  rcases he : w.end_date with _ | e
  · push_neg at hn
    simp [he] at h
    exact ⟨h.symm, hn.1, hn.2, by simp [he]⟩
  · simp [he] at h
    by_cases hlt : e < w.start_date
    · simp [hlt] at h
    · push_neg at hn
      simp [hlt] at h
      refine ⟨h.symm, hn.1, hn.2, ?_⟩
      intro e' he'
      cases he'
      exact hlt

/-- `ProjectPreview.__post_init__` returns its input unchanged on success. -/
theorem project_preview_validate_ok {p p' : ProjectPreview}
    (h : ProjectPreview.validate p = .ok p') :
    p' = p ∧ p.image_url ≠ "" := by
  by_cases hn : p.image_url = "" <;> simp [ProjectPreview.validate, hn] at h
  exact ⟨h.symm, hn⟩

/-- The technology-association save loop touches only the `project_techs`
table and the id dispenser is untouched. -/
theorem saveTechList_frame (pid u : Nat) :
    ∀ (l : List Nat) (s : Store),
      (ProjectService.saveTechList s pid u l).users = s.users ∧
      (ProjectService.saveTechList s pid u l).profiles = s.profiles ∧
      (ProjectService.saveTechList s pid u l).work_experiences = s.work_experiences ∧
      (ProjectService.saveTechList s pid u l).projects = s.projects ∧
      (ProjectService.saveTechList s pid u l).technologies = s.technologies ∧
      (ProjectService.saveTechList s pid u l).clients = s.clients ∧
      (ProjectService.saveTechList s pid u l).socials = s.socials ∧
      (ProjectService.saveTechList s pid u l).project_previews = s.project_previews ∧
      (ProjectService.saveTechList s pid u l).next_id = s.next_id := by
  intro l
  induction l with
  | nil => intro s; simp [ProjectService.saveTechList]
  | cons t rest ih =>
    intro s
    simpa [ProjectService.saveTechList, ProjectTechRepo.save] using
      ih { s with project_techs := s.project_techs ++
        [{ project_id := pid, tech_id := t, updated_at := none,
           created_by := some u, updated_by := none, is_active := true }] }

/-- The preview save loop touches only the `project_previews` table and the id
dispenser, whether it completes or aborts on a validation error. -/
theorem savePreviewList_frame (pid u : Nat) :
    ∀ (l : List PreviewIn) (s : Store),
      (ProjectService.savePreviewList s pid u l).store.users = s.users ∧
      (ProjectService.savePreviewList s pid u l).store.profiles = s.profiles ∧
      (ProjectService.savePreviewList s pid u l).store.work_experiences = s.work_experiences ∧
      (ProjectService.savePreviewList s pid u l).store.projects = s.projects ∧
      (ProjectService.savePreviewList s pid u l).store.technologies = s.technologies ∧
      (ProjectService.savePreviewList s pid u l).store.clients = s.clients ∧
      (ProjectService.savePreviewList s pid u l).store.socials = s.socials ∧
      (ProjectService.savePreviewList s pid u l).store.project_techs = s.project_techs := by
  intro l
  induction l with
  | nil => intro s; simp [ProjectService.savePreviewList, Res.store]
  | cons d rest ih =>
    intro s
    by_cases hv : d.image_url = ""
    · simp [ProjectService.savePreviewList, ProjectPreview.validate, hv, Res.store]
    · simpa [ProjectService.savePreviewList, ProjectPreview.validate, hv,
        ProjectPreviewRepo.save] using
        ih { s with project_previews := s.project_previews ++
          [{ project_id := pid, image_url := d.image_url, caption := d.caption,
             sort_order := d.sort_order.getD 0, id := some s.next_id,
             updated_at := none, created_by := some u, updated_by := none,
             is_active := true }], next_id := s.next_id + 1 }

/-- C2: every sub-resource create operation called by a user with a profile
persists an entity whose `profile_id` is the id of the caller's own profile
(the service signatures take no caller-supplied profile id at all); a caller
without a profile gets the `DomainException` "El usuario no tiene un perfil
creado." and the store is left unchanged. -/
theorem C2_create_sets_caller_profile_id :
    ∀ (s : Store) (u : Nat),
    (ProfileRepo.get_by_user_id s u = none →
      (∀ name company feedback cpu pl,
        ClientService.create_client s u name company feedback cpu pl =
          .err (.domainException "El usuario no tiene un perfil creado.") s) ∧
      (∀ jt comp sd loc ed de,
        WorkExperienceService.create_work_experience s u jt comp sd loc ed de =
          .err (.domainException "El usuario no tiene un perfil creado.") s) ∧
      (∀ name cat icon,
        TechnologyService.create_technology s u name cat icon =
          .err (.domainException "El usuario no tiene un perfil creado.") s) ∧
      (∀ pf url icon odr,
        SocialService.create_social s u pf url icon odr =
          .err (.domainException "El usuario no tiene un perfil creado.") s) ∧
      (∀ title cat de th li re fe wid tids pvs,
        ProjectService.create_project s u title cat de th li re fe wid tids pvs =
          .err (.domainException "El usuario no tiene un perfil creado.") s)) ∧
    (∀ p pid, ProfileRepo.get_by_user_id s u = some p → p.id = some pid →
      (∀ name company feedback cpu pl c s',
        ClientService.create_client s u name company feedback cpu pl = .ok c s' →
        c.profile_id = pid ∧ s'.clients = s.clients ++ [c]) ∧
      (∀ jt comp sd loc ed de w s',
        WorkExperienceService.create_work_experience s u jt comp sd loc ed de = .ok w s' →
        w.profile_id = pid ∧ s'.work_experiences = s.work_experiences ++ [w]) ∧
      (∀ name cat icon t s',
        TechnologyService.create_technology s u name cat icon = .ok t s' →
        t.profile_id = pid ∧ s'.technologies = s.technologies ++ [t]) ∧
      (∀ pf url icon odr so s',
        SocialService.create_social s u pf url icon odr = .ok so s' →
        so.profile_id = pid ∧ s'.socials = s.socials ++ [so]) ∧
      (∀ title cat de th li re fe wid tids pvs pr s',
        ProjectService.create_project s u title cat de th li re fe wid tids pvs = .ok pr s' →
        pr.profile_id = pid ∧ s'.projects = s.projects ++ [pr])) := by
  intro s u
  constructor
  · intro hnone
    refine ⟨?_, ?_, ?_, ?_, ?_⟩ <;> intros <;>
      simp [ClientService.create_client, ClientService.get_my_profile,
        WorkExperienceService.create_work_experience,
        TechnologyService.create_technology, TechnologyService.get_my_profile,
        SocialService.create_social, SocialService.get_my_profile,
        ProjectService.create_project, ProjectService.get_my_profile, hnone]
  · intro p pid hp hpid
    refine ⟨?_, ?_, ?_, ?_, ?_⟩
    · intro name company feedback cpu pl c s' h
      simp only [ClientService.create_client, ClientService.get_my_profile, hp] at h
      split at h
      · simp at h
      · rename_i nc hv
        rcases client_validate_ok hv with ⟨rfl, _⟩
        simp only [ClientRepo.save, Res.ok.injEq] at h
        rcases h with ⟨rfl, rfl⟩
        simp [hpid]
    · intro jt comp sd loc ed de w s' h
      simp only [WorkExperienceService.create_work_experience, hp] at h
      split at h
      · simp at h
      · rename_i nw hv
        rcases work_experience_validate_ok hv with ⟨rfl, _⟩
        simp only [WorkExperienceRepo.save, Res.ok.injEq] at h
        rcases h with ⟨rfl, rfl⟩
        simp [hpid]
    · intro name cat icon t s' h
      simp only [TechnologyService.create_technology, TechnologyService.get_my_profile,
        hp] at h
      split at h
      · simp at h
      · rename_i nt hv
        rcases technology_validate_ok hv with ⟨rfl, _⟩
        simp only [TechnologyRepo.save, Res.ok.injEq] at h
        rcases h with ⟨rfl, rfl⟩
        simp [hpid]
    · intro pf url icon odr so s' h
      simp only [SocialService.create_social, SocialService.get_my_profile, hp] at h
      split at h
      · simp at h
      · rename_i ns hv
        rcases social_validate_ok hv with ⟨rfl, _⟩
        simp only [SocialRepo.save, Res.ok.injEq] at h
        rcases h with ⟨rfl, rfl⟩
        simp [hpid]
    · intro title cat de th li re fe wid tids pvs pr s' h
      simp only [ProjectService.create_project, ProjectService.get_my_profile, hp] at h
      split at h
      · simp at h
      · split at h
        · simp at h
        · rename_i np hv
          split at h
          · simp at h
          · rename_i v s2 hrun
            simp only [Res.ok.injEq] at h
            rcases h with ⟨rfl, rfl⟩
            constructor
            · rcases project_validate_ok hv with ⟨rfl, _⟩
              simp [ProjectRepo.save, hpid]
            · have hfrA := (savePreviewList_frame ((ProjectRepo.save s np).1.id.getD 0) u
                (pvs.getD [])
                (ProjectService.saveTechList (ProjectRepo.save s np).2
                  ((ProjectRepo.save s np).1.id.getD 0) u (tids.getD []))).2.2.2.1
              rw [hrun] at hfrA
              simp only [Res.store] at hfrA
              have hfrB := (saveTechList_frame ((ProjectRepo.save s np).1.id.getD 0) u
                (tids.getD []) (ProjectRepo.save s np).2).2.2.2.1
              rw [hfrA, hfrB]
              rcases project_validate_ok hv with ⟨rfl, _⟩
              simp [ProjectRepo.save]

/-- C2 witness: in the two-user fixture store, user 3 has no profile and the
client create fails leaving the store unchanged, while user 1's client create
persists a client stamped with profile id 1, and user 1's project create
persists a project stamped with profile id 1. -/
theorem C2_create_sets_caller_profile_id_witness :
    ClientService.create_client storeAB 3 "Dana" none none none none =
      .err (.domainException "El usuario no tiene un perfil creado.") storeAB ∧
    ({ profile_id := 1, name := "Dana", company := none, feedback := none,
       client_photo_url := none, project_link := none, id := some 50,
       updated_at := none, created_by := some 1, updated_by := none,
       is_active := true } : Client).profile_id = 1 ∧
    ({ profile_id := 1, title := "App", category := .backend, description := none,
       thumbnail_url := none, live_url := none, repo_url := none, featured := false,
       work_experience_id := none, id := some 50, updated_at := none,
       created_by := some 1, updated_by := none, is_active := true } : Project).profile_id = 1 := by
  refine ⟨((C2_create_sets_caller_profile_id storeAB 3).1 (by rfl)).1 "Dana" none none none none,
    ?_, ?_⟩
  · exact (((C2_create_sets_caller_profile_id storeAB 1).2 profileA 1 (by rfl) rfl).1
      "Dana" none none none none _ _ (by rfl)).1
  · exact (((C2_create_sets_caller_profile_id storeAB 1).2 profileA 1 (by rfl) rfl).2.2.2.2
      "App" .backend none none none none false none none none _ _ (by rfl)).1

/-- C5: entity construction enforces the invariants before any persistence,
for every entity type with a validating `__post_init__` — a `User` with an
email lacking '@' or a username shorter than 3 characters, a `Profile` whose
normalized name is empty, a `Client` with an empty name, a `Technology` with
an empty name, a `Project` with an empty title, a `Social` with an empty
platform or url, a `ProjectPreview` with an empty image url and a
`WorkExperience` with `end_date < start_date` are all rejected by
`__post_init__` (pure functions here, no store in sight); consequently
`update_work_experience` whose merged values put the new `start_date` after
the retained `end_date`, and `update_client` given an empty name, raise
`InvalidUserError` with the store unchanged (the repository update is never
reached). -/
theorem C5_construction_validation :
    (∀ u : User, '@' ∉ u.email.toList →
      User.validate u = .error (.invalidUser "El email debe tener un formato válido.")) ∧
    (∀ u : User, '@' ∈ u.email.toList → u.username.length < 3 →
      User.validate u = .error (.invalidUser "El username debe tener al menos 3 caracteres.")) ∧
    (∀ p : Profile, pyTitle (pyJoinSplit p.name) = "" →
      Profile.validate p = .error (.invalidUser "El nombre y el apellido son obligatorios.")) ∧
    (∀ c : Client, c.name = "" →
      Client.validate c = .error (.invalidUser "El nombre del cliente es obligatorio.")) ∧
    (∀ t : Technology, t.name = "" →
      Technology.validate t =
        .error (.invalidUser "El nombre de la tecnología es obligatorio.")) ∧
    (∀ p : Project, p.title = "" →
      Project.validate p = .error (.invalidUser "El título del proyecto es obligatorio.")) ∧
    (∀ so : Social, so.platform = "" ∨ so.url = "" →
      Social.validate so = .error (.invalidUser "La plataforma y la URL son obligatorios.")) ∧
    (∀ p : ProjectPreview, p.image_url = "" →
      ProjectPreview.validate p =
        .error (.invalidUser "La URL de la imagen es obligatoria.")) ∧
    (∀ w : WorkExperience, ∀ e, w.end_date = some e → e < w.start_date →
      ∃ m, WorkExperience.validate w = .error (.invalidUser m)) ∧
    (∀ (s : Store) (u wid : Nat) (w : WorkExperience) (pr : Profile) (sd e now : Nat),
      WorkExperienceRepo.get_by_id s wid = some w →
      ProfileRepo.get_by_user_id s u = some pr →
      pr.id = some w.profile_id →
      w.job_title ≠ "" → w.company ≠ "" →
      w.end_date = some e → e < sd →
      WorkExperienceService.update_work_experience s u wid none none none (some sd) none none now =
        .err (.invalidUser "La fecha de fin no puede ser anterior a la de inicio.") s) ∧
    (∀ (s : Store) (u cid : Nat) (c : Client) (pr : Profile) (now : Nat),
      ClientRepo.get_by_id s cid = some c →
      ProfileRepo.get_by_user_id s u = some pr →
      pr.id = some c.profile_id →
      ClientService.update_client s u cid (some "") none none none none none now =
        .err (.invalidUser "El nombre del cliente es obligatorio.") s) := by
  refine ⟨?_, ?_, ?_, ?_, ?_, ?_, ?_, ?_, ?_, ?_, ?_⟩
  · intro u he
    simp only [String.toList] at he
    simp [User.validate, he]
  · intro u he hu
    simp only [String.toList] at he
    simp [User.validate, he, hu]
  · intro p hn
    simp [Profile.validate, hn]
  · intro c hn
    simp [Client.validate, hn]
  · intro t hn
    simp [Technology.validate, hn]
  · intro p hn
    simp [Project.validate, hn]
  · intro so hn
    simp [Social.validate, hn]
  · intro p hn
    simp [ProjectPreview.validate, hn]
  · intro w e he hlt
    by_cases hj : w.job_title = "" ∨ w.company = ""
    · exact ⟨"El cargo y la empresa son obligatorios.", by
        simp [WorkExperience.validate, hj]⟩
    · exact ⟨"La fecha de fin no puede ser anterior a la de inicio.", by
        simp [WorkExperience.validate, hj, he, hlt]⟩
  · intro s u wid w pr sd e now hw hpr hpid hjt hcomp he hlt
    simp only [WorkExperienceService.update_work_experience, hw,
      WorkExperienceService.verify_profile_ownership, hpr]
    rw [if_neg (by simp [hpid])]
    have hor : ¬ (w.job_title = "" ∨ w.company = "") := by
      push_neg
      exact ⟨hjt, hcomp⟩
    simp [WorkExperience.validate, hor, he, hlt]
  · intro s u cid c pr now hc hpr hpid
    simp only [ClientService.update_client, hc,
      ClientService.verify_client_ownership, ClientService.get_my_profile, hpr]
    rw [if_neg (by simp [hpid])]
    simp [Client.validate]

/-- C5 witness: a user record with email "nomail" is rejected, records of the
other entity types with their required string emptied are rejected, and
updating work experience 11 of the fixture store (whose stored `end_date` is
200) to `start_date` 300 raises the date validation error with the store
unchanged. -/
theorem C5_construction_validation_witness :
    User.validate { userA with email := "nomail" } =
      .error (.invalidUser "El email debe tener un formato válido.") ∧
    Technology.validate { technologyA with name := "" } =
      .error (.invalidUser "El nombre de la tecnología es obligatorio.") ∧
    Project.validate { projectA with title := "" } =
      .error (.invalidUser "El título del proyecto es obligatorio.") ∧
    Social.validate { socialA with platform := "" } =
      .error (.invalidUser "La plataforma y la URL son obligatorios.") ∧
    ProjectPreview.validate { previewA with image_url := "" } =
      .error (.invalidUser "La URL de la imagen es obligatoria.") ∧
    WorkExperienceService.update_work_experience storeAB 1 11 none none none (some 300)
        none none 7 =
      .err (.invalidUser "La fecha de fin no puede ser anterior a la de inicio.") storeAB := by
  refine ⟨?_, ?_, ?_, ?_, ?_, ?_⟩
  · exact C5_construction_validation.1 _ (by decide)
  · exact C5_construction_validation.2.2.2.2.1 _ (by rfl)
  · exact C5_construction_validation.2.2.2.2.2.1 _ (by rfl)
  · exact C5_construction_validation.2.2.2.2.2.2.1 _ (Or.inl (by rfl))
  · exact C5_construction_validation.2.2.2.2.2.2.2.1 _ (by rfl)
  · exact C5_construction_validation.2.2.2.2.2.2.2.2.2.1 storeAB 1 11 wexpA profileA 300 200 7
      (by rfl) (by rfl) (by rfl) (by decide) (by decide) (by rfl) (by decide)

/-- C7 counterexample: with an empty store (so neither the email nor the
username is taken), registering username "ab" does not persist a new user —
`User.__post_init__` rejects the 2-character username and `register_user`
raises `InvalidUserError`, leaving the store unchanged. This refutes the
claim's "otherwise it persists a new User ...". -/
theorem C7_register_user_counterexample :
    UserRepo.get_by_email storeEmpty "ab@x.com" = none ∧
    UserRepo.get_by_username storeEmpty "ab" = none ∧
    AuthService.register_user storeEmpty "ab" "ab@x.com" "pw"
        (fun p => p ++ "#h") "root@x.com" 5 =
      .err (.invalidUser "El username debe tener al menos 3 caracteres.") storeEmpty := by
  exact ⟨rfl, rfl, rfl⟩

/-- C7 (amended): `register_user` raises `UserAlreadyExistsError` (store
unchanged) whenever the email, or else the username, is already taken; with
both free it persists a new `User` whose `password_hash` is the hasher's hash
of the password and whose role is superadmin exactly when the email equals the
configured superadmin email — provided the new `User` passes construction
validation ('@' in the email, username of at least 3 characters); otherwise it
raises `InvalidUserError` and persists nothing. -/
def registeredUser (username email : String) (hashed : String)
    (superadmin_email : String) (now : Nat) (nid : Nat) : User :=
  { username := username, email := email, password_hash := hashed,
    role := if email = superadmin_email then .superadmin else .admin,
    id := some nid, last_login := none, created_at := now,
    updated_at := none, created_by := none, updated_by := none,
    is_active := true }

theorem C7_register_user_amended :
    ∀ (s : Store) (username email password : String) (hash : String → String)
      (superadmin_email : String) (now : Nat),
    (∀ u0, UserRepo.get_by_email s email = some u0 →
      AuthService.register_user s username email password hash superadmin_email now =
        .err (.userAlreadyExists ("El email " ++ email ++ " ya está registrado.")) s) ∧
    (UserRepo.get_by_email s email = none →
      (∀ u0, UserRepo.get_by_username s username = some u0 →
        AuthService.register_user s username email password hash superadmin_email now =
          .err (.userAlreadyExists ("El username " ++ username ++ " ya está registrado.")) s) ∧
      (UserRepo.get_by_username s username = none →
        ((email.toList.contains '@') = true → ¬ username.length < 3 →
          AuthService.register_user s username email password hash superadmin_email now =
            .ok (registeredUser username email (hash password) superadmin_email now s.next_id)
              { s with
                users := s.users ++
                  [registeredUser username email (hash password) superadmin_email now s.next_id],
                next_id := s.next_id + 1 }) ∧
        (¬ (email.toList.contains '@') = true ∨ username.length < 3 →
          ∃ m, AuthService.register_user s username email password hash superadmin_email now =
            .err (.invalidUser m) s))) := by
  intro s username email password hash superadmin_email now
  refine ⟨?_, ?_⟩
  · intro u0 h0
    simp [AuthService.register_user, h0]
  · intro hemail
    refine ⟨?_, ?_⟩
    · intro u0 h0
      simp [AuthService.register_user, hemail, h0]
    · intro husername
      refine ⟨?_, ?_⟩
      · intro hat hlen
        have hat' : '@' ∈ email.data := by simpa using hat
        simp [AuthService.register_user, hemail, husername, User.validate, hat', hlen,
          UserRepo.save, registeredUser]
      · intro hbad
        rcases hbad with hat | hlen
        · have hat' : '@' ∉ email.data := by simpa using hat
          exact ⟨"El email debe tener un formato válido.", by
            simp [AuthService.register_user, hemail, husername, User.validate, hat']⟩
        · by_cases hat : (email.toList.contains '@') = true
          · have hat' : '@' ∈ email.data := by simpa using hat
            exact ⟨"El username debe tener al menos 3 caracteres.", by
              simp [AuthService.register_user, hemail, husername, User.validate, hat', hlen]⟩
          · have hat' : '@' ∉ email.data := by simpa using hat
            exact ⟨"El email debe tener un formato válido.", by
              simp [AuthService.register_user, hemail, husername, User.validate, hat']⟩

/-- C7 witness: re-registering user A's email in the fixture store fails with
the duplicate-email conflict, and registering a fresh valid user in the empty
store persists it with the hashed password and the admin role. -/
theorem C7_register_user_amended_witness :
    AuthService.register_user storeAB "zed" "alice@mail.com" "pw"
        (fun p => p ++ "#h") "root@x.com" 5 =
      .err (.userAlreadyExists "El email alice@mail.com ya está registrado.") storeAB ∧
    AuthService.register_user storeEmpty "carol" "carol@x.com" "pw"
        (fun p => p ++ "#h") "root@x.com" 5 =
      .ok { username := "carol", email := "carol@x.com", password_hash := "pw#h",
            role := .admin, id := some 1, last_login := none, created_at := 5,
            updated_at := none, created_by := none, updated_by := none,
            is_active := true }
        { storeEmpty with
          users := [{ username := "carol", email := "carol@x.com", password_hash := "pw#h",
                      role := .admin, id := some 1, last_login := none, created_at := 5,
                      updated_at := none, created_by := none, updated_by := none,
                      is_active := true }],
          next_id := 2 } := by
  constructor
  · exact (C7_register_user_amended storeAB "zed" "alice@mail.com" "pw"
      (fun p => p ++ "#h") "root@x.com" 5).1 userA (by rfl)
  · have h := (((C7_register_user_amended storeEmpty "carol" "carol@x.com" "pw"
      (fun p => p ++ "#h") "root@x.com" 5).2 (by rfl)).2 (by rfl)).1 (by decide) (by decide)
    simpa using h

/-- Combined characterization of `updateFirst` on a well-formed table at a
present id: it patches exactly the unique row with that id. -/
theorem updateFirst_char {α : Type} {l : List α} {getId : α → Option Nat}
    (hnd : (l.map getId).Nodup) {c : α} {i : Nat} (hmem : c ∈ l) (hid : getId c = some i)
    (f : α → α) :
    updateFirst l (fun m => getId m == some i) f =
      (some (f c), l.map (fun y => if getId y == some i then f y else y)) := by
  have h1 := updateFirst_fst l (fun m => getId m == some i) f
  have h2 := updateFirst_snd_eq_map (l := l) (p := fun m => getId m == some i) (f := f)
    (pairwise_not_both hnd i)
  rw [find?_id_eq_of_nodup hnd hmem hid] at h1
  exact Prod.ext h1 h2

/-- C6: `login_user` returns the sentinel `none` (not an exception) both when
no user has the email and when password verification fails, leaving the store
unchanged; on success it returns a bearer token created from the claims
`sub = user.email` and `role = user.role.value`, persisting only the
`last_login` stamp of that user's row. -/
theorem C6_login_user :
    ∀ (s : Store) (email password : String) (verify : String → String → Bool)
      (tok : TokenData → String) (now : Nat),
    (UserRepo.get_by_email s email = none →
      AuthService.login_user s email password verify tok now = .ok none s) ∧
    (∀ user, UserRepo.get_by_email s email = some user →
      (verify password user.password_hash = false →
        AuthService.login_user s email password verify tok now = .ok none s) ∧
      (verify password user.password_hash = true →
        TableWF s.users (fun m => m.id) →
        AuthService.login_user s email password verify tok now =
          .ok (some { access_token := tok { sub := user.email, role := user.role.value },
                      token_type := "bearer" })
            { s with users := s.users.map (fun m =>
                if m.id == user.id then { m with last_login := some now } else m) })) := by
  intro s email password verify tok now
  refine ⟨?_, ?_⟩
  · intro hnone
    simp [AuthService.login_user, hnone]
  · intro user huser
    refine ⟨?_, ?_⟩
    · intro hv
      simp [AuthService.login_user, huser, hv]
    · intro hv hwf
      have hmem : user ∈ s.users := List.mem_of_find?_eq_some huser
      obtain ⟨uid, hid⟩ := Option.isSome_iff_exists.mp (hwf.1 user hmem)
      simp only [AuthService.login_user, huser]
      rw [if_neg (by simp [hv])]
      simp only [UserRepo.update, hid]
      rw [updateFirst_char hwf.2 hmem hid]
      dsimp only
      congr 1
      congr 1
      apply List.map_congr_left
      intro y hy
      have hid' : user.id = some uid := hid
      by_cases hcase : (y.id == some uid) = true
      · have hyid : y.id = some uid := beq_iff_eq.mp hcase
        have hyu : y = user := map_nodup_inj hwf.2 y hy user hmem (by
          show y.id = user.id
          rw [hyid, hid'])
        subst hyu
        simp [hyid, hid']
      · have hne : ¬ (y.id == user.id) = true := by
          rw [hid']
          exact hcase
        simp [hcase, hne]

/-- C6 witness: in the fixture store, a wrong password yields the `none`
sentinel with the store unchanged, and the right password yields a bearer
token with subject "alice@mail.com" and role "admin", stamping user 1's
`last_login`. -/
theorem C6_login_user_witness :
    AuthService.login_user storeAB "alice@mail.com" "wrong"
        (fun p h => p ++ "#h" == h) (fun d => d.sub ++ "|" ++ d.role) 9 =
      .ok none storeAB ∧
    AuthService.login_user storeAB "alice@mail.com" "pw1"
        (fun p h => p ++ "#h" == h) (fun d => d.sub ++ "|" ++ d.role) 9 =
      .ok (some { access_token := "alice@mail.com|admin", token_type := "bearer" })
        { storeAB with users := [{ userA with last_login := some 9 }, userB] } := by
  constructor
  · exact ((C6_login_user storeAB "alice@mail.com" "wrong"
      (fun p h => p ++ "#h" == h) (fun d => d.sub ++ "|" ++ d.role) 9).2 userA
      (by rfl)).1 (by decide)
  · have h := ((C6_login_user storeAB "alice@mail.com" "pw1"
      (fun p h => p ++ "#h" == h) (fun d => d.sub ++ "|" ++ d.role) 9).2 userA
      (by rfl)).2 (by decide) (by decide)
    simpa [storeAB, userA, userB] using h

/-- C10 counterexample: work experience 11 exists in the fixture store and
user 5 has no profile, yet `get_work_experience_by_id` raises
`UnauthorizedAccessError` — not the generic missing-profile `DomainException`
the claim prescribes for every sub-resource. -/
theorem C10_error_precedence_counterexample :
    WorkExperienceRepo.get_by_id storeAB 11 = some wexpA ∧
    ProfileRepo.get_by_user_id storeAB 5 = none ∧
    WorkExperienceService.get_work_experience_by_id storeAB 5 11 =
      .err (.unauthorizedAccess "No tienes permiso para acceder a este perfil.") storeAB := by
  exact ⟨rfl, rfl, rfl⟩

/-- C10 (amended): for client, technology, project and social, a missing (or
soft-deleted, hence invisible) id makes get/update/delete raise the resource's
NotFoundError before any profile lookup, and an existing resource with a
caller who has no profile raises the generic missing-profile
`DomainException`; the work-experience service deviates: its repository
`get_by_id` ignores `is_active`, and its ownership check raises
`UnauthorizedAccessError` (not the generic `DomainException`) when the caller
has no profile — only a completely absent work-experience id yields
NotFoundError. In every case the store is unchanged. -/
theorem C10_error_precedence_amended :
    ∀ (s : Store) (u rid now : Nat),
    (ClientRepo.get_by_id s rid = none →
      ClientService.get_client_by_id s u rid =
        .err (.clientNotFound "Cliente no encontrado.") s ∧
      (∀ a b c d e f, ClientService.update_client s u rid a b c d e f now =
        .err (.clientNotFound "Cliente no encontrado.") s) ∧
      ClientService.delete_client s u rid now =
        .err (.clientNotFound "Cliente no encontrado.") s) ∧
    (TechnologyRepo.get_by_id s rid = none →
      TechnologyService.get_technology_by_id s u rid =
        .err (.technologyNotFound "Tecnología no encontrada.") s ∧
      (∀ a b c d, TechnologyService.update_technology s u rid a b c d now =
        .err (.technologyNotFound "Tecnología no encontrada.") s) ∧
      TechnologyService.delete_technology s u rid now =
        .err (.technologyNotFound "Tecnología no encontrada.") s) ∧
    (ProjectRepo.get_by_id s rid = none →
      ProjectService.get_project_by_id s u rid =
        .err (.projectNotFound "Proyecto no encontrado.") s ∧
      (∀ a b c d e f g h i j, ProjectService.update_project s u rid a b c d e f g h i j now =
        .err (.projectNotFound "Proyecto no encontrado.") s) ∧
      ProjectService.delete_project s u rid now =
        .err (.projectNotFound "Proyecto no encontrado.") s) ∧
    (SocialRepo.get_by_id s rid = none →
      SocialService.get_social_by_id s u rid =
        .err (.socialNotFound "Social link no encontrado.") s ∧
      (∀ a b c d e, SocialService.update_social s u rid a b c d e now =
        .err (.socialNotFound "Social link no encontrado.") s) ∧
      SocialService.delete_social s u rid now =
        .err (.socialNotFound "Social link no encontrado.") s) ∧
    (WorkExperienceRepo.get_by_id s rid = none →
      WorkExperienceService.get_work_experience_by_id s u rid =
        .err (.workExperienceNotFound "Experiencia laboral no encontrada.") s ∧
      (∀ a b c d e f, WorkExperienceService.update_work_experience s u rid a b c d e f now =
        .err (.workExperienceNotFound "Experiencia laboral no encontrada.") s) ∧
      WorkExperienceService.delete_work_experience s u rid now =
        .err (.workExperienceNotFound "Experiencia laboral no encontrada.") s) ∧
    (ProfileRepo.get_by_user_id s u = none →
      (∀ c, ClientRepo.get_by_id s rid = some c →
        ClientService.get_client_by_id s u rid =
          .err (.domainException "El usuario no tiene un perfil creado.") s ∧
        (∀ a b c' d e f, ClientService.update_client s u rid a b c' d e f now =
          .err (.domainException "El usuario no tiene un perfil creado.") s) ∧
        ClientService.delete_client s u rid now =
          .err (.domainException "El usuario no tiene un perfil creado.") s) ∧
      (∀ t, TechnologyRepo.get_by_id s rid = some t →
        TechnologyService.get_technology_by_id s u rid =
          .err (.domainException "El usuario no tiene un perfil creado.") s ∧
        (∀ a b c d, TechnologyService.update_technology s u rid a b c d now =
          .err (.domainException "El usuario no tiene un perfil creado.") s) ∧
        TechnologyService.delete_technology s u rid now =
          .err (.domainException "El usuario no tiene un perfil creado.") s) ∧
      (∀ p, ProjectRepo.get_by_id s rid = some p →
        ProjectService.get_project_by_id s u rid =
          .err (.domainException "El usuario no tiene un perfil creado.") s ∧
        (∀ a b c d e f g h i j, ProjectService.update_project s u rid a b c d e f g h i j now =
          .err (.domainException "El usuario no tiene un perfil creado.") s) ∧
        ProjectService.delete_project s u rid now =
          .err (.domainException "El usuario no tiene un perfil creado.") s) ∧
      (∀ so, SocialRepo.get_by_id s rid = some so →
        SocialService.get_social_by_id s u rid =
          .err (.domainException "El usuario no tiene un perfil creado.") s ∧
        (∀ a b c d e, SocialService.update_social s u rid a b c d e now =
          .err (.domainException "El usuario no tiene un perfil creado.") s) ∧
        SocialService.delete_social s u rid now =
          .err (.domainException "El usuario no tiene un perfil creado.") s) ∧
      (∀ w, WorkExperienceRepo.get_by_id s rid = some w →
        WorkExperienceService.get_work_experience_by_id s u rid =
          .err (.unauthorizedAccess "No tienes permiso para acceder a este perfil.") s ∧
        (∀ a b c d e f, WorkExperienceService.update_work_experience s u rid a b c d e f now =
          .err (.unauthorizedAccess "No tienes permiso para acceder a este perfil.") s) ∧
        WorkExperienceService.delete_work_experience s u rid now =
          .err (.unauthorizedAccess "No tienes permiso para acceder a este perfil.") s)) := by
  intro s u rid now
  refine ⟨?_, ?_, ?_, ?_, ?_, ?_⟩
  · intro h
    exact ⟨by simp [ClientService.get_client_by_id, h],
      fun a b c d e f => by simp [ClientService.update_client, h],
      by simp [ClientService.delete_client, h]⟩
  · intro h
    exact ⟨by simp [TechnologyService.get_technology_by_id, h],
      fun a b c d => by simp [TechnologyService.update_technology, h],
      by simp [TechnologyService.delete_technology, h]⟩
  · intro h
    exact ⟨by simp [ProjectService.get_project_by_id, h],
      fun a b c d e f g h' i j => by simp [ProjectService.update_project, h],
      by simp [ProjectService.delete_project, h]⟩
  · intro h
    exact ⟨by simp [SocialService.get_social_by_id, h],
      fun a b c d e => by simp [SocialService.update_social, h],
      by simp [SocialService.delete_social, h]⟩
  · intro h
    exact ⟨by simp [WorkExperienceService.get_work_experience_by_id, h],
      fun a b c d e f => by simp [WorkExperienceService.update_work_experience, h],
      by simp [WorkExperienceService.delete_work_experience, h]⟩
  · intro hp
    refine ⟨?_, ?_, ?_, ?_, ?_⟩
    · intro c hc
      exact ⟨by simp [ClientService.get_client_by_id, hc,
          ClientService.verify_client_ownership, ClientService.get_my_profile, hp],
        fun a b c' d e f => by simp [ClientService.update_client, hc,
          ClientService.verify_client_ownership, ClientService.get_my_profile, hp],
        by simp [ClientService.delete_client, hc,
          ClientService.verify_client_ownership, ClientService.get_my_profile, hp]⟩
    · intro t ht
      exact ⟨by simp [TechnologyService.get_technology_by_id, ht,
          TechnologyService.verify_technology_ownership, TechnologyService.get_my_profile, hp],
        fun a b c d => by simp [TechnologyService.update_technology, ht,
          TechnologyService.verify_technology_ownership, TechnologyService.get_my_profile, hp],
        by simp [TechnologyService.delete_technology, ht,
          TechnologyService.verify_technology_ownership, TechnologyService.get_my_profile, hp]⟩
    · intro p hpr
      exact ⟨by simp [ProjectService.get_project_by_id, hpr,
          ProjectService.verify_project_ownership, ProjectService.get_my_profile, hp],
        fun a b c d e f g h' i j => by simp [ProjectService.update_project, hpr,
          ProjectService.verify_project_ownership, ProjectService.get_my_profile, hp],
        by simp [ProjectService.delete_project, hpr,
          ProjectService.verify_project_ownership, ProjectService.get_my_profile, hp]⟩
    · intro so hso
      exact ⟨by simp [SocialService.get_social_by_id, hso,
          SocialService.verify_social_ownership, SocialService.get_my_profile, hp],
        fun a b c d e => by simp [SocialService.update_social, hso,
          SocialService.verify_social_ownership, SocialService.get_my_profile, hp],
        by simp [SocialService.delete_social, hso,
          SocialService.verify_social_ownership, SocialService.get_my_profile, hp]⟩
    · intro w hw
      exact ⟨by simp [WorkExperienceService.get_work_experience_by_id, hw,
          WorkExperienceService.verify_profile_ownership, hp],
        fun a b c d e f => by simp [WorkExperienceService.update_work_experience, hw,
          WorkExperienceService.verify_profile_ownership, hp],
        by simp [WorkExperienceService.delete_work_experience, hw,
          WorkExperienceService.verify_profile_ownership, hp]⟩

/-- C10 witness: in the fixture store, id 99 matches no client so user 1's
lookup fails NotFound; client 14 exists but user 5 has no profile, so user 5's
lookup fails with the generic missing-profile `DomainException`. -/
theorem C10_error_precedence_amended_witness :
    ClientService.get_client_by_id storeAB 1 99 =
      .err (.clientNotFound "Cliente no encontrado.") storeAB ∧
    ClientService.get_client_by_id storeAB 5 14 =
      .err (.domainException "El usuario no tiene un perfil creado.") storeAB := by
  constructor
  · exact ((C10_error_precedence_amended storeAB 1 99 0).1 (by rfl)).1
  · exact (((C10_error_precedence_amended storeAB 5 14 0).2.2.2.2.2 (by rfl)).1 clientA
      (by rfl)).1

/-- `SqlAlchemyClientRepository.update` can only raise `ValueError`. -/
theorem client_repo_update_err {s : Store} {c : Client} {e : DomainError}
    (h : ClientRepo.update s c = .error e) :
    ∃ m, e = .valueError m := by
  unfold ClientRepo.update at h
  split at h
  · simp at h
  · simp only [Except.error.injEq] at h
    exact ⟨_, h.symm⟩

/-- `SqlAlchemyTechnologyRepository.update` can only raise `ValueError`. -/
theorem technology_repo_update_err {s : Store} {t : Technology} {e : DomainError}
    (h : TechnologyRepo.update s t = .error e) : ∃ m, e = .valueError m := by
  unfold TechnologyRepo.update at h
  split at h
  · simp at h
  · simp only [Except.error.injEq] at h
    exact ⟨_, h.symm⟩

/-- `SqlAlchemySocialRepository.update` can only raise `ValueError`. -/
theorem social_repo_update_err {s : Store} {so : Social} {e : DomainError}
    (h : SocialRepo.update s so = .error e) : ∃ m, e = .valueError m := by
  unfold SocialRepo.update at h
  split at h
  · simp at h
  · simp only [Except.error.injEq] at h
    exact ⟨_, h.symm⟩

/-- `SqlAlchemyProjectRepository.update` can only raise `ValueError`. -/
theorem project_repo_update_err {s : Store} {p : Project} {e : DomainError}
    (h : ProjectRepo.update s p = .error e) : ∃ m, e = .valueError m := by
  unfold ProjectRepo.update at h
  split at h
  · simp at h
  · simp only [Except.error.injEq] at h
    exact ⟨_, h.symm⟩

/-- The preview save loop can only raise `InvalidUserError`. -/
theorem savePreviewList_err {pid u : Nat} :
    ∀ {l : List PreviewIn} {s : Store} {e : DomainError} {s' : Store},
    ProjectService.savePreviewList s pid u l = .err e s' → ∃ m, e = .invalidUser m := by
  intro l
  induction l with
  | nil => intro s e s' h; simp [ProjectService.savePreviewList] at h
  | cons d rest ih =>
    intro s e s' h
    by_cases hv : d.image_url = ""
    · simp [ProjectService.savePreviewList, ProjectPreview.validate, hv] at h
      exact ⟨_, h.1.symm⟩
    · simp only [ProjectService.savePreviewList, ProjectPreview.validate, hv,
        if_false] at h
      exact ih h

/-- `Client.__post_init__` can only raise `InvalidUserError`. -/
theorem client_validate_err {c : Client} {e : DomainError}
    (h : Client.validate c = .error e) : ∃ m, e = .invalidUser m := by
  unfold Client.validate at h
  split at h
  · simp only [Except.error.injEq] at h
    exact ⟨_, h.symm⟩
  · simp at h

/-- `Technology.__post_init__` can only raise `InvalidUserError`. -/
theorem technology_validate_err {t : Technology} {e : DomainError}
    (h : Technology.validate t = .error e) : ∃ m, e = .invalidUser m := by
  unfold Technology.validate at h
  split at h
  · simp only [Except.error.injEq] at h
    exact ⟨_, h.symm⟩
  · simp at h

/-- `Social.__post_init__` can only raise `InvalidUserError`. -/
theorem social_validate_err {so : Social} {e : DomainError}
    (h : Social.validate so = .error e) : ∃ m, e = .invalidUser m := by
  unfold Social.validate at h
  split at h
  · simp only [Except.error.injEq] at h
    exact ⟨_, h.symm⟩
  · simp at h

/-- `Project.__post_init__` can only raise `InvalidUserError`. -/
theorem project_validate_err {p : Project} {e : DomainError}
    (h : Project.validate p = .error e) : ∃ m, e = .invalidUser m := by
  unfold Project.validate at h
  split at h
  · simp only [Except.error.injEq] at h
    exact ⟨_, h.symm⟩
  · simp at h

/-- `WorkExperience.__post_init__` can only raise `InvalidUserError`. -/
theorem work_experience_validate_err {w : WorkExperience} {e : DomainError}
    (h : WorkExperience.validate w = .error e) : ∃ m, e = .invalidUser m := by
  unfold WorkExperience.validate at h
  split at h
  · simp only [Except.error.injEq] at h
    exact ⟨_, h.symm⟩
  · split at h
    · simp only [Except.error.injEq] at h
      exact ⟨_, h.symm⟩
    · simp at h

/-- C1 counterexample: user 1 owns project 12, users 1 and 2 both have
profiles, and work experience 21 belongs to user 2's profile; user 1's own
`update_project` on project 12 — a call the claim says raises no unauthorized
error for the owner — raises `UnauthorizedAccessError`, because the supplied
`work_experience_id` 21 fails the linked work-experience ownership check. -/
theorem C1_ownership_counterexample :
    ProfileRepo.get_by_user_id storeAB 1 = some profileA ∧
    profileA.id = some 1 ∧
    ProjectRepo.get_by_id storeAB 12 = some projectA ∧
    projectA.profile_id = 1 ∧
    WorkExperienceRepo.get_by_id storeAB 21 = some wexpB ∧
    wexpB.profile_id = 2 ∧
    ProjectService.update_project storeAB 1 12 none none none none none none none
        (some 21) none none 7 =
      .err (.unauthorizedAccess "No tienes permiso para usar esta experiencia laboral.")
        storeAB := by
  exact ⟨rfl, rfl, rfl, rfl, rfl, rfl, rfl⟩

/-- C1 (amended): for users U1 ≠ U2 who both have profiles and any stored
sub-resource whose `profile_id` is U1's profile id: U2's get/update/delete on
it raises `UnauthorizedAccessError` and leaves the store unchanged; U1's get
returns the resource, and U1's update and delete never produce an unauthorized
error — except that `update_project` additionally checks ownership of a
supplied `work_experience_id`, so U1's project update is unauthorized-free
only when any supplied linked work experience it names resolves to U1's own
profile. Ownership is always decided by comparing the stored resource's
`profile_id` with the profile freshly looked up from the caller's user id. -/
theorem C1_ownership_amended :
    ∀ (s : Store) (u1 u2 : Nat) (p1 p2 : Profile) (now : Nat),
    u1 ≠ u2 →
    TableWF s.profiles (fun p => p.id) →
    ProfileRepo.get_by_user_id s u1 = some p1 →
    ProfileRepo.get_by_user_id s u2 = some p2 →
    (∀ cid c, ClientRepo.get_by_id s cid = some c → some c.profile_id = p1.id →
      ClientService.get_client_by_id s u2 cid =
        .err (.unauthorizedAccess "No tienes permiso para acceder a este cliente.") s ∧
      (∀ a b c' d e f, ClientService.update_client s u2 cid a b c' d e f now =
        .err (.unauthorizedAccess "No tienes permiso para acceder a este cliente.") s) ∧
      ClientService.delete_client s u2 cid now =
        .err (.unauthorizedAccess "No tienes permiso para acceder a este cliente.") s ∧
      ClientService.get_client_by_id s u1 cid = .ok c s ∧
      (∀ a b c' d e f,
        (ClientService.update_client s u1 cid a b c' d e f now).unauthorized = false) ∧
      (ClientService.delete_client s u1 cid now).unauthorized = false) ∧
    (∀ tid t, TechnologyRepo.get_by_id s tid = some t → some t.profile_id = p1.id →
      TechnologyService.get_technology_by_id s u2 tid =
        .err (.unauthorizedAccess "No tienes permiso para acceder a esta tecnología.") s ∧
      (∀ a b c d, TechnologyService.update_technology s u2 tid a b c d now =
        .err (.unauthorizedAccess "No tienes permiso para acceder a esta tecnología.") s) ∧
      TechnologyService.delete_technology s u2 tid now =
        .err (.unauthorizedAccess "No tienes permiso para acceder a esta tecnología.") s ∧
      TechnologyService.get_technology_by_id s u1 tid = .ok t s ∧
      (∀ a b c d,
        (TechnologyService.update_technology s u1 tid a b c d now).unauthorized = false) ∧
      (TechnologyService.delete_technology s u1 tid now).unauthorized = false) ∧
    (∀ sid so, SocialRepo.get_by_id s sid = some so → some so.profile_id = p1.id →
      SocialService.get_social_by_id s u2 sid =
        .err (.unauthorizedAccess "No tienes permiso para acceder a este social link.") s ∧
      (∀ a b c d e, SocialService.update_social s u2 sid a b c d e now =
        .err (.unauthorizedAccess "No tienes permiso para acceder a este social link.") s) ∧
      SocialService.delete_social s u2 sid now =
        .err (.unauthorizedAccess "No tienes permiso para acceder a este social link.") s ∧
      SocialService.get_social_by_id s u1 sid = .ok so s ∧
      (∀ a b c d e,
        (SocialService.update_social s u1 sid a b c d e now).unauthorized = false) ∧
      (SocialService.delete_social s u1 sid now).unauthorized = false) ∧
    (∀ wid w, WorkExperienceRepo.get_by_id s wid = some w → some w.profile_id = p1.id →
      WorkExperienceService.get_work_experience_by_id s u2 wid =
        .err (.unauthorizedAccess "No tienes permiso para acceder a este perfil.") s ∧
      (∀ a b c d e f, WorkExperienceService.update_work_experience s u2 wid a b c d e f now =
        .err (.unauthorizedAccess "No tienes permiso para acceder a este perfil.") s) ∧
      WorkExperienceService.delete_work_experience s u2 wid now =
        .err (.unauthorizedAccess "No tienes permiso para acceder a este perfil.") s ∧
      WorkExperienceService.get_work_experience_by_id s u1 wid = .ok w s ∧
      (∀ a b c d e f,
        (WorkExperienceService.update_work_experience s u1 wid a b c d e f now).unauthorized =
          false) ∧
      (WorkExperienceService.delete_work_experience s u1 wid now).unauthorized = false) ∧
    (∀ pid pr, ProjectRepo.get_by_id s pid = some pr → some pr.profile_id = p1.id →
      ProjectService.get_project_by_id s u2 pid =
        .err (.unauthorizedAccess "No tienes permiso para acceder a este proyecto.") s ∧
      (∀ a b c d e f g wa ti pv, ProjectService.update_project s u2 pid a b c d e f g wa ti pv now =
        .err (.unauthorizedAccess "No tienes permiso para acceder a este proyecto.") s) ∧
      ProjectService.delete_project s u2 pid now =
        .err (.unauthorizedAccess "No tienes permiso para acceder a este proyecto.") s ∧
      ProjectService.get_project_by_id s u1 pid = .ok pr s ∧
      (∀ a b c d e f g wa ti pv,
        (∀ wid w, wa = some wid → WorkExperienceRepo.get_by_id s wid = some w →
          some w.profile_id = p1.id) →
        (ProjectService.update_project s u1 pid a b c d e f g wa ti pv now).unauthorized =
          false) ∧
      (ProjectService.delete_project s u1 pid now).unauthorized = false) := by
  intro s u1 u2 p1 p2 now h12 hwf h1 h2
  have hm1 : p1 ∈ s.profiles := List.mem_of_find?_eq_some h1
  have hm2 : p2 ∈ s.profiles := List.mem_of_find?_eq_some h2
  have hu1' := List.find?_some
    (show List.find? (fun m => m.user_id == u1) s.profiles = some p1 from h1)
  have hu2' := List.find?_some
    (show List.find? (fun m => m.user_id == u2) s.profiles = some p2 from h2)
  have hu1 : (p1.user_id == u1) = true := hu1'
  have hu2 : (p2.user_id == u2) = true := hu2'
  have hne : p1.id ≠ p2.id := by
    intro heq
    have hp : p1 = p2 := map_nodup_inj hwf.2 p1 hm1 p2 hm2 heq
    exact h12 (by rw [← beq_iff_eq.mp hu1, hp, beq_iff_eq.mp hu2])
  refine ⟨?_, ?_, ?_, ?_, ?_⟩
  · intro cid c hc hcp1
    have hcp2 : ¬ some c.profile_id = p2.id := by
      intro hh
      exact hne (by rw [← hcp1, hh])
    refine ⟨?_, ?_, ?_, ?_, ?_, ?_⟩
    · simp [ClientService.get_client_by_id, hc, ClientService.verify_client_ownership,
        ClientService.get_my_profile, h2, hcp2]
    · intro a b c' d e f
      simp [ClientService.update_client, hc, ClientService.verify_client_ownership,
        ClientService.get_my_profile, h2, hcp2]
    · simp [ClientService.delete_client, hc, ClientService.verify_client_ownership,
        ClientService.get_my_profile, h2, hcp2]
    · simp [ClientService.get_client_by_id, hc, ClientService.verify_client_ownership,
        ClientService.get_my_profile, h1, hcp1]
    · intro a b c' d e f
      simp only [ClientService.update_client, hc, ClientService.verify_client_ownership,
        ClientService.get_my_profile, h1]
      rw [if_neg (by simp [hcp1])]
      dsimp only
      split
      · rename_i e' he'
        rcases client_validate_err he' with ⟨m, rfl⟩
        simp [Res.unauthorized]
      · split
        · rename_i e' he'
          rcases client_repo_update_err he' with ⟨m, rfl⟩
          simp [Res.unauthorized]
        · simp [Res.unauthorized]
    · simp only [ClientService.delete_client, hc, ClientService.verify_client_ownership,
        ClientService.get_my_profile, h1]
      rw [if_neg (by simp [hcp1])]
      simp [Res.unauthorized]
  · intro tid t ht htp1
    have htp2 : ¬ some t.profile_id = p2.id := by
      intro hh
      exact hne (by rw [← htp1, hh])
    refine ⟨?_, ?_, ?_, ?_, ?_, ?_⟩
    · simp [TechnologyService.get_technology_by_id, ht,
        TechnologyService.verify_technology_ownership, TechnologyService.get_my_profile,
        h2, htp2]
    · intro a b c d
      simp [TechnologyService.update_technology, ht,
        TechnologyService.verify_technology_ownership, TechnologyService.get_my_profile,
        h2, htp2]
    · simp [TechnologyService.delete_technology, ht,
        TechnologyService.verify_technology_ownership, TechnologyService.get_my_profile,
        h2, htp2]
    · simp [TechnologyService.get_technology_by_id, ht,
        TechnologyService.verify_technology_ownership, TechnologyService.get_my_profile,
        h1, htp1]
    · intro a b c d
      simp only [TechnologyService.update_technology, ht,
        TechnologyService.verify_technology_ownership, TechnologyService.get_my_profile, h1]
      rw [if_neg (by simp [htp1])]
      dsimp only
      split
      · rename_i e' he'
        rcases technology_validate_err he' with ⟨m, rfl⟩
        simp [Res.unauthorized]
      · split
        · rename_i e' he'
          rcases technology_repo_update_err he' with ⟨m, rfl⟩
          simp [Res.unauthorized]
        · simp [Res.unauthorized]
    · simp only [TechnologyService.delete_technology, ht,
        TechnologyService.verify_technology_ownership, TechnologyService.get_my_profile, h1]
      rw [if_neg (by simp [htp1])]
      simp [Res.unauthorized]
  · intro sid so hso hsp1
    have hsp2 : ¬ some so.profile_id = p2.id := by
      intro hh
      exact hne (by rw [← hsp1, hh])
    refine ⟨?_, ?_, ?_, ?_, ?_, ?_⟩
    · simp [SocialService.get_social_by_id, hso, SocialService.verify_social_ownership,
        SocialService.get_my_profile, h2, hsp2]
    · intro a b c d e
      simp [SocialService.update_social, hso, SocialService.verify_social_ownership,
        SocialService.get_my_profile, h2, hsp2]
    · simp [SocialService.delete_social, hso, SocialService.verify_social_ownership,
        SocialService.get_my_profile, h2, hsp2]
    · simp [SocialService.get_social_by_id, hso, SocialService.verify_social_ownership,
        SocialService.get_my_profile, h1, hsp1]
    · intro a b c d e
      simp only [SocialService.update_social, hso, SocialService.verify_social_ownership,
        SocialService.get_my_profile, h1]
      rw [if_neg (by simp [hsp1])]
      dsimp only
      split
      · rename_i e' he'
        rcases social_validate_err he' with ⟨m, rfl⟩
        simp [Res.unauthorized]
      · split
        · rename_i e' he'
          rcases social_repo_update_err he' with ⟨m, rfl⟩
          simp [Res.unauthorized]
        · simp [Res.unauthorized]
    · simp only [SocialService.delete_social, hso, SocialService.verify_social_ownership,
        SocialService.get_my_profile, h1]
      rw [if_neg (by simp [hsp1])]
      simp [Res.unauthorized]
  · intro wid w hw hwp1
    have hwp2 : ¬ p2.id = some w.profile_id := by
      intro hh
      exact hne (by rw [← hwp1, hh])
    refine ⟨?_, ?_, ?_, ?_, ?_, ?_⟩
    · simp [WorkExperienceService.get_work_experience_by_id, hw,
        WorkExperienceService.verify_profile_ownership, h2, hwp2]
    · intro a b c d e f
      simp [WorkExperienceService.update_work_experience, hw,
        WorkExperienceService.verify_profile_ownership, h2, hwp2]
    · simp [WorkExperienceService.delete_work_experience, hw,
        WorkExperienceService.verify_profile_ownership, h2, hwp2]
    · simp [WorkExperienceService.get_work_experience_by_id, hw,
        WorkExperienceService.verify_profile_ownership, h1, ← hwp1]
    · intro a b c d e f
      simp only [WorkExperienceService.update_work_experience, hw,
        WorkExperienceService.verify_profile_ownership, h1]
      rw [if_neg (by simp [← hwp1])]
      dsimp only
      split
      · rename_i e' he'
        rcases work_experience_validate_err he' with ⟨m, rfl⟩
        simp [Res.unauthorized]
      · simp [Res.unauthorized]
    · simp only [WorkExperienceService.delete_work_experience, hw,
        WorkExperienceService.verify_profile_ownership, h1]
      rw [if_neg (by simp [← hwp1])]
      simp [Res.unauthorized]
  · intro pid pr hpr hpp1
    have hpp2 : ¬ some pr.profile_id = p2.id := by
      intro hh
      exact hne (by rw [← hpp1, hh])
    refine ⟨?_, ?_, ?_, ?_, ?_, ?_⟩
    · simp [ProjectService.get_project_by_id, hpr, ProjectService.verify_project_ownership,
        ProjectService.get_my_profile, h2, hpp2]
    · intro a b c d e f g wa ti pv
      simp [ProjectService.update_project, hpr, ProjectService.verify_project_ownership,
        ProjectService.get_my_profile, h2, hpp2]
    · simp [ProjectService.delete_project, hpr, ProjectService.verify_project_ownership,
        ProjectService.get_my_profile, h2, hpp2]
    · simp [ProjectService.get_project_by_id, hpr, ProjectService.verify_project_ownership,
        ProjectService.get_my_profile, h1, hpp1]
    · intro a b c d e f g wa ti pv hwall
      simp only [ProjectService.update_project, hpr, ProjectService.verify_project_ownership,
        ProjectService.get_my_profile, h1]
      rw [if_neg (by simp [hpp1])]
      have hver : ∀ e', ProjectService.verify_work_experience_ownership s u1 wa = .error e' →
          ∃ m, e' = .domainException m := by
        intro e' hx
        rcases hwa : wa with _ | wid'
        · rw [hwa] at hx
          simp [ProjectService.verify_work_experience_ownership] at hx
        · rw [hwa] at hx
          simp only [ProjectService.verify_work_experience_ownership] at hx
          rcases hww : WorkExperienceRepo.get_by_id s wid' with _ | w'
          · rw [hww] at hx
            simp only [Except.error.injEq] at hx
            exact ⟨_, hx.symm⟩
          · rw [hww] at hx
            simp only [ProjectService.get_my_profile, h1] at hx
            rw [if_neg (by simp [hwall wid' w' hwa hww])] at hx
            simp at hx
      dsimp only
      split
      · rename_i e' he'
        rcases hver e' he' with ⟨m, rfl⟩
        simp [Res.unauthorized]
      · split
        · rename_i e' he'
          rcases project_validate_err he' with ⟨m, rfl⟩
          simp [Res.unauthorized]
        · split
          · rename_i e' he'
            rcases project_repo_update_err he' with ⟨m, rfl⟩
            simp [Res.unauthorized]
          · rcases pv with _ | pvs
            · simp [Res.unauthorized]
            · dsimp only
              split
              · rename_i e' s4 he'
                rcases savePreviewList_err he' with ⟨m, rfl⟩
                simp [Res.unauthorized]
              · simp [Res.unauthorized]
    · simp only [ProjectService.delete_project, hpr, ProjectService.verify_project_ownership,
        ProjectService.get_my_profile, h1]
      rw [if_neg (by simp [hpp1])]
      simp [Res.unauthorized]

/-- C1 witness: in the fixture store user 2's read of user 1's client 14 is
unauthorized with the store unchanged, user 1's read returns it, and user 1's
delete is not an unauthorized error. -/
theorem C1_ownership_amended_witness :
    ClientService.get_client_by_id storeAB 2 14 =
      .err (.unauthorizedAccess "No tienes permiso para acceder a este cliente.") storeAB ∧
    ClientService.get_client_by_id storeAB 1 14 = .ok clientA storeAB ∧
    (ClientService.delete_client storeAB 1 14 7).unauthorized = false := by
  have h := C1_ownership_amended storeAB 1 2 profileA profileB 7 (by decide) (by decide)
    (by rfl) (by rfl)
  have hc := h.1 14 clientA (by rfl) (by rfl)
  exact ⟨hc.1, hc.2.2.2.1, hc.2.2.2.2.2⟩

/-- A `Client` with a non-empty name passes `__post_init__` unchanged. -/
theorem client_validate_ok_of {c : Client} (h : c.name ≠ "") :
    Client.validate c = .ok c := by
  simp [Client.validate, h]

/-- A `Technology` with a non-empty name passes `__post_init__` unchanged. -/
theorem technology_validate_ok_of {t : Technology} (h : t.name ≠ "") :
    Technology.validate t = .ok t := by
  simp [Technology.validate, h]

/-- A `Project` with a non-empty title passes `__post_init__` unchanged. -/
theorem project_validate_ok_of {p : Project} (h : p.title ≠ "") :
    Project.validate p = .ok p := by
  simp [Project.validate, h]

/-- A `Social` with non-empty platform and url passes `__post_init__`
unchanged. -/
theorem social_validate_ok_of {so : Social} (h1 : so.platform ≠ "") (h2 : so.url ≠ "") :
    Social.validate so = .ok so := by
  simp [Social.validate, h1, h2]

/-- A `WorkExperience` with non-empty required strings and consistent dates
passes `__post_init__` unchanged. -/
theorem work_experience_validate_ok_of {w : WorkExperience} (h1 : w.job_title ≠ "")
    (h2 : w.company ≠ "") (h3 : ∀ e, w.end_date = some e → ¬ e < w.start_date) :
    WorkExperience.validate w = .ok w := by
  have hor : ¬ (w.job_title = "" ∨ w.company = "") := by
    push_neg
    exact ⟨h1, h2⟩
  rcases he : w.end_date with _ | e
  · simp [WorkExperience.validate, hor, he]
  · simp [WorkExperience.validate, hor, he, h3 e he]

/-- C4: for every sub-resource row owned by the caller (and satisfying its
construction invariant, as all stored rows do), the corresponding `update_*`
with every optional field `None` returns and persists an entity equal to the
pre-update row in every field except the audit stamps: `updated_at := now` and
`updated_by := caller`; in particular `id`, `profile_id`, `created_by`,
`is_active` and all content fields are unchanged, and no other row or table is
touched. -/
theorem C4_allnone_update_stamps_audit :
    ∀ (s : Store) (u : Nat) (p : Profile) (now : Nat),
    ProfileRepo.get_by_user_id s u = some p →
    (∀ cid c, TableWF s.clients (fun y => y.id) →
      ClientRepo.get_by_id s cid = some c → some c.profile_id = p.id → c.name ≠ "" →
      ClientService.update_client s u cid none none none none none none now =
        .ok { c with updated_at := some now, updated_by := some u }
          { s with clients := s.clients.map (fun y =>
              if y.id == some cid then
                { y with updated_at := some now, updated_by := some u } else y) }) ∧
    (∀ tid t, TableWF s.technologies (fun y => y.id) →
      TechnologyRepo.get_by_id s tid = some t → some t.profile_id = p.id → t.name ≠ "" →
      TechnologyService.update_technology s u tid none none none none now =
        .ok { t with updated_at := some now, updated_by := some u }
          { s with technologies := s.technologies.map (fun y =>
              if y.id == some tid then
                { y with updated_at := some now, updated_by := some u } else y) }) ∧
    (∀ sid so, TableWF s.socials (fun y => y.id) →
      SocialRepo.get_by_id s sid = some so → some so.profile_id = p.id →
      so.platform ≠ "" → so.url ≠ "" →
      SocialService.update_social s u sid none none none none none now =
        .ok { so with updated_at := some now, updated_by := some u }
          { s with socials := s.socials.map (fun y =>
              if y.id == some sid then
                { y with updated_at := some now, updated_by := some u } else y) }) ∧
    (∀ wid w, TableWF s.work_experiences (fun y => y.id) →
      WorkExperienceRepo.get_by_id s wid = some w → some w.profile_id = p.id →
      w.job_title ≠ "" → w.company ≠ "" →
      (∀ e, w.end_date = some e → ¬ e < w.start_date) →
      WorkExperienceService.update_work_experience s u wid none none none none none none now =
        .ok { w with updated_at := some now, updated_by := some u }
          { s with work_experiences := s.work_experiences.map (fun y =>
              if y.id == some wid then
                { y with updated_at := some now, updated_by := some u } else y) }) ∧
    (∀ pid pr, TableWF s.projects (fun y => y.id) →
      ProjectRepo.get_by_id s pid = some pr → some pr.profile_id = p.id → pr.title ≠ "" →
      ProjectService.update_project s u pid none none none none none none none none none none
          now =
        .ok { pr with updated_at := some now, updated_by := some u }
          { s with projects := s.projects.map (fun y =>
              if y.id == some pid then
                { y with updated_at := some now, updated_by := some u } else y) }) := by
  intro s u p now hp
  refine ⟨?_, ?_, ?_, ?_, ?_⟩
  · intro cid c hwf hc hcp hname
    have hmem : c ∈ s.clients := List.mem_of_find?_eq_some
      (show List.find? (fun m => m.id == some cid && m.is_active) s.clients = some c from hc)
    have hfs := List.find?_some
      (show List.find? (fun m => m.id == some cid && m.is_active) s.clients = some c from hc)
    have hcid : c.id = some cid := by
      simp only [Bool.and_eq_true, beq_iff_eq] at hfs
      exact hfs.1
    simp only [ClientService.update_client, hc, ClientService.verify_client_ownership,
      ClientService.get_my_profile, hp]
    rw [if_neg (by simp [hcp])]
    dsimp only [Option.getD, Option.orElse]
    split
    · rename_i e' he'
      simp [Client.validate, hname] at he'
    · rename_i nc heq
      rcases client_validate_ok heq with ⟨rfl, _⟩
      simp only [ClientRepo.update, hcid]
      rw [updateFirst_char hwf.2 hmem hcid]
      dsimp only
      rw [show s.clients.map (fun y =>
          if (y.id == some cid) = true then
            { profile_id := y.profile_id, name := c.name, company := c.company,
              feedback := c.feedback, client_photo_url := c.client_photo_url,
              project_link := c.project_link, id := y.id, updated_at := some now,
              created_by := y.created_by, updated_by := some u,
              is_active := y.is_active : Client }
          else y) = s.clients.map (fun y =>
          if (y.id == some cid) = true then
            { y with updated_at := some now, updated_by := some u } else y) from
        List.map_congr_left (fun y hy => by
          by_cases hcase : (y.id == some cid) = true
          · have hyu : y = c := map_nodup_inj hwf.2 y hy c hmem (by
              show y.id = c.id
              rw [beq_iff_eq.mp hcase, hcid])
            subst hyu
            simp [hcase]
          · simp [hcase])]
      rw [hcid]
  · intro tid t hwf ht htp hname
    have hmem : t ∈ s.technologies := List.mem_of_find?_eq_some
      (show List.find? (fun m => m.id == some tid && m.is_active) s.technologies = some t
        from ht)
    have hfs := List.find?_some
      (show List.find? (fun m => m.id == some tid && m.is_active) s.technologies = some t
        from ht)
    have htid : t.id = some tid := by
      simp only [Bool.and_eq_true, beq_iff_eq] at hfs
      exact hfs.1
    simp only [TechnologyService.update_technology, ht,
      TechnologyService.verify_technology_ownership, TechnologyService.get_my_profile, hp]
    rw [if_neg (by simp [htp])]
    dsimp only [Option.getD, Option.orElse]
    split
    · rename_i e' he'
      simp [Technology.validate, hname] at he'
    · rename_i nt heq
      rcases technology_validate_ok heq with ⟨rfl, _⟩
      simp only [TechnologyRepo.update, htid]
      rw [updateFirst_char hwf.2 hmem htid]
      dsimp only
      rw [show s.technologies.map (fun y =>
          if (y.id == some tid) = true then
            { profile_id := t.profile_id, name := t.name, category := t.category,
              icon_url := t.icon_url, id := y.id, updated_at := some now,
              created_by := y.created_by, updated_by := some u,
              is_active := y.is_active : Technology }
          else y) = s.technologies.map (fun y =>
          if (y.id == some tid) = true then
            { y with updated_at := some now, updated_by := some u } else y) from
        List.map_congr_left (fun y hy => by
          by_cases hcase : (y.id == some tid) = true
          · have hyu : y = t := map_nodup_inj hwf.2 y hy t hmem (by
              show y.id = t.id
              rw [beq_iff_eq.mp hcase, htid])
            subst hyu
            simp [hcase]
          · simp [hcase])]
      rw [htid]
  · intro sid so hwf hso hsp hplat hurl
    have hmem : so ∈ s.socials := List.mem_of_find?_eq_some
      (show List.find? (fun m => m.id == some sid && m.is_active) s.socials = some so
        from hso)
    have hfs := List.find?_some
      (show List.find? (fun m => m.id == some sid && m.is_active) s.socials = some so
        from hso)
    have hsid : so.id = some sid := by
      simp only [Bool.and_eq_true, beq_iff_eq] at hfs
      exact hfs.1
    simp only [SocialService.update_social, hso, SocialService.verify_social_ownership,
      SocialService.get_my_profile, hp]
    rw [if_neg (by simp [hsp])]
    dsimp only [Option.getD, Option.orElse]
    split
    · rename_i e' he'
      simp [Social.validate, hplat, hurl] at he'
    · rename_i ns heq
      rcases social_validate_ok heq with ⟨rfl, _, _⟩
      simp only [SocialRepo.update, hsid]
      rw [updateFirst_char hwf.2 hmem hsid]
      dsimp only
      rw [show s.socials.map (fun y =>
          if (y.id == some sid) = true then
            { profile_id := so.profile_id, platform := so.platform, url := so.url,
              icon_name := so.icon_name, sort_order := so.sort_order, id := y.id,
              updated_at := some now, created_by := y.created_by, updated_by := some u,
              is_active := y.is_active : Social }
          else y) = s.socials.map (fun y =>
          if (y.id == some sid) = true then
            { y with updated_at := some now, updated_by := some u } else y) from
        List.map_congr_left (fun y hy => by
          by_cases hcase : (y.id == some sid) = true
          · have hyu : y = so := map_nodup_inj hwf.2 y hy so hmem (by
              show y.id = so.id
              rw [beq_iff_eq.mp hcase, hsid])
            subst hyu
            simp [hcase]
          · simp [hcase])]
      rw [hsid]
  · intro wid w hwf hw hwp hjt hcomp hdates
    have hmem : w ∈ s.work_experiences := List.mem_of_find?_eq_some
      (show List.find? (fun m => m.id == some wid) s.work_experiences = some w from hw)
    have hfs := List.find?_some
      (show List.find? (fun m => m.id == some wid) s.work_experiences = some w from hw)
    have hwid : w.id = some wid := beq_iff_eq.mp hfs
    simp only [WorkExperienceService.update_work_experience, hw,
      WorkExperienceService.verify_profile_ownership, hp]
    rw [if_neg (by simp [← hwp])]
    dsimp only [Option.getD, Option.orElse]
    split
    · rename_i e' he'
      rcases hend : w.end_date with _ | e0
      · simp [WorkExperience.validate, hjt, hcomp, hend] at he'
      · simp [WorkExperience.validate, hjt, hcomp, hend, hdates e0 hend] at he'
    · rename_i nw heq
      rcases work_experience_validate_ok heq with ⟨rfl, _⟩
      simp only [WorkExperienceRepo.update, hwid]
      rw [updateFirst_char hwf.2 hmem hwid]
      dsimp only
      rw [show s.work_experiences.map (fun y =>
          if (y.id == some wid) = true then
            { profile_id := y.profile_id, job_title := w.job_title, company := w.company,
              location := w.location, start_date := w.start_date, end_date := w.end_date,
              description := w.description, id := y.id, updated_at := some now,
              created_by := y.created_by, updated_by := some u,
              is_active := w.is_active : WorkExperience }
          else y) = s.work_experiences.map (fun y =>
          if (y.id == some wid) = true then
            { y with updated_at := some now, updated_by := some u } else y) from
        List.map_congr_left (fun y hy => by
          by_cases hcase : (y.id == some wid) = true
          · have hyu : y = w := map_nodup_inj hwf.2 y hy w hmem (by
              show y.id = w.id
              rw [beq_iff_eq.mp hcase, hwid])
            subst hyu
            simp [hcase]
          · simp [hcase])]
      rw [hwid]
  · intro pid pr hwf hpr hpp htitle
    have hmem : pr ∈ s.projects := List.mem_of_find?_eq_some
      (show List.find? (fun m => m.id == some pid && m.is_active) s.projects = some pr
        from hpr)
    have hfs := List.find?_some
      (show List.find? (fun m => m.id == some pid && m.is_active) s.projects = some pr
        from hpr)
    have hpid : pr.id = some pid := by
      simp only [Bool.and_eq_true, beq_iff_eq] at hfs
      exact hfs.1
    simp only [ProjectService.update_project, hpr, ProjectService.verify_project_ownership,
      ProjectService.get_my_profile, hp]
    rw [if_neg (by simp [hpp])]
    simp only [ProjectService.verify_work_experience_ownership]
    dsimp only [Option.getD, Option.orElse]
    split
    · rename_i e' he'
      simp [Project.validate, htitle] at he'
    · rename_i np heq
      rcases project_validate_ok heq with ⟨rfl, _⟩
      simp only [ProjectRepo.update, hpid]
      rw [updateFirst_char hwf.2 hmem hpid]
      dsimp only
      rw [show s.projects.map (fun y =>
          if (y.id == some pid) = true then
            { profile_id := y.profile_id, title := pr.title, category := pr.category,
              description := pr.description, thumbnail_url := pr.thumbnail_url,
              live_url := pr.live_url, repo_url := pr.repo_url, featured := pr.featured,
              work_experience_id := pr.work_experience_id, id := y.id,
              updated_at := some now, created_by := y.created_by, updated_by := some u,
              is_active := y.is_active : Project }
          else y) = s.projects.map (fun y =>
          if (y.id == some pid) = true then
            { y with updated_at := some now, updated_by := some u } else y) from
        List.map_congr_left (fun y hy => by
          by_cases hcase : (y.id == some pid) = true
          · have hyu : y = pr := map_nodup_inj hwf.2 y hy pr hmem (by
              show y.id = pr.id
              rw [beq_iff_eq.mp hcase, hpid])
            subst hyu
            simp [hcase]
          · simp [hcase])]
      rw [hpid]

/-- Fixture client 14 with the audit stamps of an update at tick 7 by user 1. -/
def clientAstamped : Client :=
  { clientA with updated_at := some 7, updated_by := some 1 }

/-- C4 witness: updating client 14 of the fixture store as user 1 with every
optional field `None` returns the stored client with only the audit stamps
changed, and persists exactly that row. -/
theorem C4_allnone_update_stamps_audit_witness :
    ClientService.update_client storeAB 1 14 none none none none none none 7 =
      .ok clientAstamped { storeAB with clients := [clientAstamped] } := by
  have h := (C4_allnone_update_stamps_audit storeAB 1 profileA 7 (by rfl)).1 14 clientA
    (by decide) (by rfl) (by rfl) (by decide)
  simpa [storeAB, clientA, clientAstamped] using h

/-- After soft-deleting the row with a given id, an active-only lookup of that
id finds nothing, for any flip that preserves ids and clears the active
flag. -/
theorem flip_find?_none {α : Type} (l : List α) (gid : α → Option Nat) (act : α → Bool)
    (flp : α → α) (rid : Nat)
    (hact : ∀ y, act (flp y) = false) :
    List.find? (fun m => gid m == some rid && act m)
      (l.map (fun y => if gid y == some rid then flp y else y)) = none := by
  rw [List.find?_eq_none]
  intro a ha
  rcases List.mem_map.1 ha with ⟨y, _, rfl⟩
  by_cases hy : (gid y == some rid) = true
  · simp [hy, hact]
  · simp [hy]

/-- After soft-deleting the row with a given id, no active-filtered listing
contains that id. -/
theorem flip_filter_excludes {α : Type} {l : List α} {gid : α → Option Nat}
    {act : α → Bool} {flp : α → α} {rid : Nat} {q : α → Bool}
    (hact : ∀ y, act (flp y) = false)
    (hq : ∀ x, q x = true → act x = true) :
    ∀ x ∈ (l.map (fun y => if gid y == some rid then flp y else y)).filter q,
      gid x ≠ some rid := by
  intro x hx
  rcases List.mem_filter.1 hx with ⟨hxm, hxq⟩
  rcases List.mem_map.1 hxm with ⟨y, _, rfl⟩
  by_cases hy : (gid y == some rid) = true
  · exfalso
    simp only [hy, if_true] at hxq
    have h1 := hq _ hxq
    rw [hact y] at h1
    exact Bool.false_ne_true h1
  · rw [if_neg hy] at hxq ⊢
    intro hc
    exact hy (by simp [hc])

/-- A lookup whose predicate is exactly the flip condition commutes with the
soft-delete map. -/
theorem find?_map_flip {α : Type} {p : α → Bool} {f : α → α}
    (hp : ∀ y, p (f y) = p y) :
    ∀ (l : List α), List.find? p (l.map (fun y => if p y then f y else y)) =
      (List.find? p l).map (fun y => if p y then f y else y) := by
  intro l
  induction l with
  | nil => rfl
  | cons y ys ih =>
    by_cases hy : p y = true
    · simp [List.find?_cons, hy, hp]
    · simp [List.find?_cons, hy, ih]

/-- Fixture work experience 11 after its soft delete at tick 7 by user 1. -/
def wexpAdel : WorkExperience :=
  { wexpA with is_active := false, updated_by := some 1, updated_at := some 7 }

/-- Fixture store after user 1 soft-deletes work experience 11 at tick 7. -/
def storeABdelW : Store :=
  { storeAB with work_experiences := [wexpAdel, wexpB] }

/-- C8 counterexample: after the owner soft-deletes work experience 11, a
subsequent `get_work_experience_by_id` does not raise
`WorkExperienceNotFoundError` — it returns the soft-deleted row, because
`WorkExperienceRepository.get_by_id` has no `is_active` filter. -/
theorem C8_softdelete_counterexample :
    WorkExperienceService.delete_work_experience storeAB 1 11 7 = .ok true storeABdelW ∧
    WorkExperienceService.get_work_experience_by_id storeABdelW 1 11 =
      .ok wexpAdel storeABdelW := by
  exact ⟨rfl, rfl⟩

/-- C8 (amended): a soft delete flips `is_active` without removing the row.
Afterwards every `get_all_by_profile_id` listing excludes the id, and the
active-filtered `get_by_id` of client, technology, project and social finds
nothing, so the services raise the resource's NotFoundError for every caller.
The work-experience repository `get_by_id`, however, does not filter
`is_active` and still returns the soft-deleted row; likewise the profile
lookup by `user_id` has no `is_active` filter and resolves a soft-deleted
profile. -/
theorem C8_softdelete_reads_amended :
    (∀ (s : Store) (u rid now : Nat) (s' : Store),
      TableWF s.clients (fun y => y.id) →
      ClientService.delete_client s u rid now = .ok true s' →
      (∀ u', ClientService.get_client_by_id s' u' rid =
        .err (.clientNotFound "Cliente no encontrado.") s') ∧
      (∀ pid', ∀ x ∈ ClientRepo.get_all_by_profile_id s' pid', x.id ≠ some rid)) ∧
    (∀ (s : Store) (u rid now : Nat) (s' : Store),
      TableWF s.technologies (fun y => y.id) →
      TechnologyService.delete_technology s u rid now = .ok true s' →
      (∀ u', TechnologyService.get_technology_by_id s' u' rid =
        .err (.technologyNotFound "Tecnología no encontrada.") s') ∧
      (∀ pid', ∀ x ∈ TechnologyRepo.get_all_by_profile_id s' pid', x.id ≠ some rid)) ∧
    (∀ (s : Store) (u rid now : Nat) (s' : Store),
      TableWF s.projects (fun y => y.id) →
      ProjectService.delete_project s u rid now = .ok true s' →
      (∀ u', ProjectService.get_project_by_id s' u' rid =
        .err (.projectNotFound "Proyecto no encontrado.") s') ∧
      (∀ pid', ∀ x ∈ ProjectRepo.get_all_by_profile_id s' pid', x.id ≠ some rid)) ∧
    (∀ (s : Store) (u rid now : Nat) (s' : Store),
      TableWF s.socials (fun y => y.id) →
      SocialService.delete_social s u rid now = .ok true s' →
      (∀ u', SocialService.get_social_by_id s' u' rid =
        .err (.socialNotFound "Social link no encontrado.") s') ∧
      (∀ pid', ∀ x ∈ SocialRepo.get_all_by_profile_id s' pid', x.id ≠ some rid)) ∧
    (∀ (s : Store) (u rid now : Nat) (s' : Store) (w : WorkExperience),
      TableWF s.work_experiences (fun y => y.id) →
      WorkExperienceRepo.get_by_id s rid = some w →
      WorkExperienceService.delete_work_experience s u rid now = .ok true s' →
      (∀ pid', ∀ x ∈ WorkExperienceRepo.get_all_by_profile_id s' pid', x.id ≠ some rid) ∧
      WorkExperienceRepo.get_by_id s' rid =
        some { w with is_active := false, updated_by := some u, updated_at := some now }) ∧
    (∀ (q : Profile) (rest : List Profile) (u' : Nat),
      q.user_id = u' → q.is_active = false →
      ProfileRepo.get_by_user_id { storeEmpty with profiles := q :: rest } u' = some q) := by
  refine ⟨?_, ?_, ?_, ?_, ?_, ?_⟩
  · intro s u rid now s' hwf hdel
    rcases hget : ClientRepo.get_by_id s rid with _ | c
    · simp [ClientService.delete_client, hget] at hdel
    · have hmem : c ∈ s.clients := List.mem_of_find?_eq_some
        (show List.find? (fun m => m.id == some rid && m.is_active) s.clients = some c
          from hget)
      have hfs := List.find?_some
        (show List.find? (fun m => m.id == some rid && m.is_active) s.clients = some c
          from hget)
      have hcid : c.id = some rid := by
        simp only [Bool.and_eq_true, beq_iff_eq] at hfs
        exact hfs.1
      simp only [ClientService.delete_client, hget] at hdel
      rcases hver : ClientService.verify_client_ownership s u c with ⟨e'⟩ | ⟨v⟩
      · rw [hver] at hdel
        simp at hdel
      · rw [hver] at hdel
        dsimp only at hdel
        simp only [ClientRepo.delete] at hdel
        rw [updateFirst_char hwf.2 hmem hcid] at hdel
        dsimp only at hdel
        simp only [Res.ok.injEq] at hdel
        rcases hdel with ⟨-, hs'⟩
        constructor
        · intro u'
          rw [← hs']
          have hga : List.find? (fun m => m.id == some rid && m.is_active)
              (s.clients.map (fun y =>
                if y.id == some rid
                then { y with is_active := false, updated_at := some now, updated_by := some u }
                else y)) = none :=
            flip_find?_none s.clients (fun y => y.id) (fun y => y.is_active) _ rid
              (fun y => rfl)
          simp only [ClientService.get_client_by_id, ClientRepo.get_by_id]
          rw [hga]
        · intro pid' x hx
          rw [← hs'] at hx
          simp only [ClientRepo.get_all_by_profile_id] at hx
          rw [List.mem_insertionSort] at hx
          exact flip_filter_excludes (fun y => rfl)
            (fun z hz => ((Bool.and_eq_true _ _).mp hz).2) x hx
  · intro s u rid now s' hwf hdel
    rcases hget : TechnologyRepo.get_by_id s rid with _ | t
    · simp [TechnologyService.delete_technology, hget] at hdel
    · have hmem : t ∈ s.technologies := List.mem_of_find?_eq_some
        (show List.find? (fun m => m.id == some rid && m.is_active) s.technologies = some t
          from hget)
      have hfs := List.find?_some
        (show List.find? (fun m => m.id == some rid && m.is_active) s.technologies = some t
          from hget)
      have hcid : t.id = some rid := by
        simp only [Bool.and_eq_true, beq_iff_eq] at hfs
        exact hfs.1
      simp only [TechnologyService.delete_technology, hget] at hdel
      rcases hver : TechnologyService.verify_technology_ownership s u t with ⟨e'⟩ | ⟨v⟩
      · rw [hver] at hdel
        simp at hdel
      · rw [hver] at hdel
        dsimp only at hdel
        simp only [TechnologyRepo.delete] at hdel
        rw [updateFirst_char hwf.2 hmem hcid] at hdel
        dsimp only at hdel
        simp only [Res.ok.injEq] at hdel
        rcases hdel with ⟨-, hs'⟩
        constructor
        · intro u'
          rw [← hs']
          have hga : List.find? (fun m => m.id == some rid && m.is_active)
              (s.technologies.map (fun y =>
                if y.id == some rid
                then { y with is_active := false, updated_at := some now, updated_by := some u }
                else y)) = none :=
            flip_find?_none s.technologies (fun y => y.id) (fun y => y.is_active) _ rid
              (fun y => rfl)
          simp only [TechnologyService.get_technology_by_id, TechnologyRepo.get_by_id]
          rw [hga]
        · intro pid' x hx
          rw [← hs'] at hx
          simp only [TechnologyRepo.get_all_by_profile_id] at hx
          rw [List.mem_insertionSort] at hx
          exact flip_filter_excludes (fun y => rfl)
            (fun z hz => ((Bool.and_eq_true _ _).mp hz).2) x hx
  · intro s u rid now s' hwf hdel
    rcases hget : ProjectRepo.get_by_id s rid with _ | pr
    · simp [ProjectService.delete_project, hget] at hdel
    · have hmem : pr ∈ s.projects := List.mem_of_find?_eq_some
        (show List.find? (fun m => m.id == some rid && m.is_active) s.projects = some pr
          from hget)
      have hfs := List.find?_some
        (show List.find? (fun m => m.id == some rid && m.is_active) s.projects = some pr
          from hget)
      have hcid : pr.id = some rid := by
        simp only [Bool.and_eq_true, beq_iff_eq] at hfs
        exact hfs.1
      simp only [ProjectService.delete_project, hget] at hdel
      rcases hver : ProjectService.verify_project_ownership s u pr with ⟨e'⟩ | ⟨v⟩
      · rw [hver] at hdel
        simp at hdel
      · rw [hver] at hdel
        dsimp only at hdel
        simp only [ProjectRepo.delete] at hdel
        rw [updateFirst_char hwf.2 hmem hcid] at hdel
        dsimp only at hdel
        simp only [Res.ok.injEq] at hdel
        rcases hdel with ⟨-, hs'⟩
        constructor
        · intro u'
          rw [← hs']
          have hga : List.find? (fun m => m.id == some rid && m.is_active)
              (s.projects.map (fun y =>
                if y.id == some rid
                then { y with is_active := false, updated_at := some now, updated_by := some u }
                else y)) = none :=
            flip_find?_none s.projects (fun y => y.id) (fun y => y.is_active) _ rid
              (fun y => rfl)
          simp only [ProjectService.get_project_by_id, ProjectRepo.get_by_id]
          rw [hga]
        · intro pid' x hx
          rw [← hs'] at hx
          simp only [ProjectRepo.get_all_by_profile_id] at hx
          rw [List.mem_insertionSort] at hx
          exact flip_filter_excludes (fun y => rfl)
            (fun z hz => ((Bool.and_eq_true _ _).mp hz).2) x hx
  · intro s u rid now s' hwf hdel
    rcases hget : SocialRepo.get_by_id s rid with _ | so
    · simp [SocialService.delete_social, hget] at hdel
    · have hmem : so ∈ s.socials := List.mem_of_find?_eq_some
        (show List.find? (fun m => m.id == some rid && m.is_active) s.socials = some so
          from hget)
      have hfs := List.find?_some
        (show List.find? (fun m => m.id == some rid && m.is_active) s.socials = some so
          from hget)
      have hcid : so.id = some rid := by
        simp only [Bool.and_eq_true, beq_iff_eq] at hfs
        exact hfs.1
      simp only [SocialService.delete_social, hget] at hdel
      rcases hver : SocialService.verify_social_ownership s u so with ⟨e'⟩ | ⟨v⟩
      · rw [hver] at hdel
        simp at hdel
      · rw [hver] at hdel
        dsimp only at hdel
        simp only [SocialRepo.delete] at hdel
        rw [updateFirst_char hwf.2 hmem hcid] at hdel
        dsimp only at hdel
        simp only [Res.ok.injEq] at hdel
        rcases hdel with ⟨-, hs'⟩
        constructor
        · intro u'
          rw [← hs']
          have hga : List.find? (fun m => m.id == some rid && m.is_active)
              (s.socials.map (fun y =>
                if y.id == some rid
                then { y with is_active := false, updated_at := some now, updated_by := some u }
                else y)) = none :=
            flip_find?_none s.socials (fun y => y.id) (fun y => y.is_active) _ rid
              (fun y => rfl)
          simp only [SocialService.get_social_by_id, SocialRepo.get_by_id]
          rw [hga]
        · intro pid' x hx
          rw [← hs'] at hx
          simp only [SocialRepo.get_all_by_profile_id] at hx
          rw [List.mem_insertionSort] at hx
          exact flip_filter_excludes (fun y => rfl)
            (fun z hz => ((Bool.and_eq_true _ _).mp hz).2) x hx
  · intro s u rid now s' w hwf hget hdel
    have hmem : w ∈ s.work_experiences := List.mem_of_find?_eq_some
      (show List.find? (fun m => m.id == some rid) s.work_experiences = some w from hget)
    have hfs := List.find?_some
      (show List.find? (fun m => m.id == some rid) s.work_experiences = some w from hget)
    have hcid : w.id = some rid := beq_iff_eq.mp hfs
    simp only [WorkExperienceService.delete_work_experience, hget] at hdel
    rcases hver : WorkExperienceService.verify_profile_ownership s u w.profile_id
        with ⟨e'⟩ | ⟨v⟩
    · rw [hver] at hdel
      simp at hdel
    · rw [hver] at hdel
      dsimp only at hdel
      simp only [WorkExperienceRepo.delete] at hdel
      rw [updateFirst_char hwf.2 hmem hcid] at hdel
      dsimp only at hdel
      simp only [Res.ok.injEq] at hdel
      rcases hdel with ⟨-, hs'⟩
      constructor
      · intro pid' x hx
        rw [← hs'] at hx
        simp only [WorkExperienceRepo.get_all_by_profile_id] at hx
        rw [List.mem_insertionSort] at hx
        exact flip_filter_excludes (fun y => rfl)
          (fun z hz => ((Bool.and_eq_true _ _).mp hz).2) x hx
      · rw [← hs']
        simp only [WorkExperienceRepo.get_by_id]
        rw [@find?_map_flip WorkExperience (fun m => m.id == some rid)
          (fun m => { m with is_active := false, updated_by := some u, updated_at := some now })
          (fun y => rfl) s.work_experiences]
        rw [show List.find? (fun m => m.id == some rid) s.work_experiences = some w
          from hget]
        simp [hcid]
  · intro q rest u' hq hact
    simp [ProfileRepo.get_by_user_id, List.find?_cons, hq]

/-- Fixture client 14 after its soft delete at tick 7 by user 1. -/
def clientAdel : Client :=
  { clientA with is_active := false, updated_at := some 7, updated_by := some 1 }

/-- Fixture profile 1 marked inactive. -/
def profileAdel : Profile :=
  { profileA with is_active := false }

/-- C8 witness: in the fixture store, after user 1 soft-deletes client 14 the
client lookup fails NotFound for every caller and the profile-1 client listing
is empty; and the inactive-profile lookup conjunct applied to a soft-deleted
copy of profile 1 still resolves it. -/
theorem C8_softdelete_reads_amended_witness :
    ClientService.get_client_by_id { storeAB with clients := [clientAdel] } 2 14 =
      .err (.clientNotFound "Cliente no encontrado.")
        { storeAB with clients := [clientAdel] } ∧
    ProfileRepo.get_by_user_id { storeEmpty with profiles := [profileAdel] } 1 =
      some profileAdel := by
  constructor
  · have h := ((C8_softdelete_reads_amended.1 storeAB 1 14 7
      { storeAB with clients := [clientAdel] } (by decide) (by rfl)).1) 2
    simpa using h
  · exact C8_softdelete_reads_amended.2.2.2.2.2 profileAdel [] 1 rfl rfl

/-- A successful `ProjectRepo.update` touches only the `projects` table. -/
theorem ProjectRepo.update_frame {s : Store} {pr q : Project} {s1 : Store}
    (h : ProjectRepo.update s pr = .ok (q, s1)) :
    s1.users = s.users ∧ s1.profiles = s.profiles ∧
    s1.work_experiences = s.work_experiences ∧ s1.technologies = s.technologies ∧
    s1.clients = s.clients ∧ s1.socials = s.socials ∧
    s1.project_techs = s.project_techs ∧ s1.project_previews = s.project_previews ∧
    s1.next_id = s.next_id := by
  unfold ProjectRepo.update at h
  split at h
  · simp only [Except.ok.injEq, Prod.mk.injEq] at h
    rcases h with ⟨-, rfl⟩
    exact ⟨rfl, rfl, rfl, rfl, rfl, rfl, rfl, rfl, rfl⟩
  · simp at h

/-- A successful `ProjectRepo.update` returns a row with the entity's id
(the SQL row was selected by that id and the patch does not write it). -/
theorem ProjectRepo.update_ok_id {s : Store} {pr q : Project} {s1 : Store}
    (h : ProjectRepo.update s pr = .ok (q, s1)) : q.id = pr.id := by
  unfold ProjectRepo.update at h
  split at h
  · rename_i m l' heq
    simp only [Except.ok.injEq, Prod.mk.injEq] at h
    rcases h with ⟨rfl, -⟩
    have hfst := congrArg Prod.fst heq
    simp only [updateFirst_fst] at hfst
    rcases hf : List.find? (fun m => m.id == pr.id) s.projects with _ | x
    · rw [hf] at hfst
      simp at hfst
    · rw [hf] at hfst
      simp only [Option.map_some'] at hfst
      rcases hfst with ⟨rfl⟩
      have hps := List.find?_some
        (show List.find? (fun m => m.id == pr.id) s.projects = some x from hf)
      exact beq_iff_eq.mp hps
  · simp at h

/-- The preview delete loop touches only the `project_previews` table. -/
theorem deletePreviewList_frame (now : DateTime) :
    ∀ (xs : List ProjectPreview) (s : Store),
      (ProjectService.deletePreviewList s xs now).users = s.users ∧
      (ProjectService.deletePreviewList s xs now).profiles = s.profiles ∧
      (ProjectService.deletePreviewList s xs now).work_experiences = s.work_experiences ∧
      (ProjectService.deletePreviewList s xs now).projects = s.projects ∧
      (ProjectService.deletePreviewList s xs now).technologies = s.technologies ∧
      (ProjectService.deletePreviewList s xs now).clients = s.clients ∧
      (ProjectService.deletePreviewList s xs now).socials = s.socials ∧
      (ProjectService.deletePreviewList s xs now).project_techs = s.project_techs := by
  intro xs
  induction xs with
  | nil => intro s; simp [ProjectService.deletePreviewList]
  | cons x rest ih =>
    intro s
    have hx : ProjectService.deletePreviewList s (x :: rest) now =
        ProjectService.deletePreviewList
          (ProjectPreviewRepo.delete s (x.id.getD 0) now).2 rest now := by
      simp [ProjectService.deletePreviewList]
    rw [hx]
    have hone : ∀ (st : Store),
        (ProjectPreviewRepo.delete st (x.id.getD 0) now).2.users = st.users ∧
        (ProjectPreviewRepo.delete st (x.id.getD 0) now).2.profiles = st.profiles ∧
        (ProjectPreviewRepo.delete st (x.id.getD 0) now).2.work_experiences =
          st.work_experiences ∧
        (ProjectPreviewRepo.delete st (x.id.getD 0) now).2.projects = st.projects ∧
        (ProjectPreviewRepo.delete st (x.id.getD 0) now).2.technologies = st.technologies ∧
        (ProjectPreviewRepo.delete st (x.id.getD 0) now).2.clients = st.clients ∧
        (ProjectPreviewRepo.delete st (x.id.getD 0) now).2.socials = st.socials ∧
        (ProjectPreviewRepo.delete st (x.id.getD 0) now).2.project_techs =
          st.project_techs := by
      intro st
      unfold ProjectPreviewRepo.delete
      split <;> exact ⟨rfl, rfl, rfl, rfl, rfl, rfl, rfl, rfl⟩
    rcases ih (ProjectPreviewRepo.delete s (x.id.getD 0) now).2 with
      ⟨i1, i2, i3, i4, i5, i6, i7, i8⟩
    rcases hone s with ⟨o1, o2, o3, o4, o5, o6, o7, o8⟩
    exact ⟨i1.trans o1, i2.trans o2, i3.trans o3, i4.trans o4, i5.trans o5,
      i6.trans o6, i7.trans o7, i8.trans o8⟩

/-- The technology-association save loop appends one fresh active row per id,
in order. -/
theorem saveTechList_techs (pid u : Nat) :
    ∀ (l : List Nat) (s : Store),
      (ProjectService.saveTechList s pid u l).project_techs =
        s.project_techs ++ l.map (fun tid =>
          { project_id := pid, tech_id := tid, updated_at := none,
            created_by := some u, updated_by := none, is_active := true }) := by
  intro l
  induction l with
  | nil => intro s; simp [ProjectService.saveTechList]
  | cons t rest ih =>
    intro s
    have hx : ProjectService.saveTechList s pid u (t :: rest) =
        ProjectService.saveTechList
          { s with project_techs := s.project_techs ++
            [{ project_id := pid, tech_id := t, updated_at := none,
               created_by := some u, updated_by := none, is_active := true }] }
          pid u rest := by
      simp [ProjectService.saveTechList, ProjectTechRepo.save]
    rw [hx, ih]
    simp

/-- Rows standing in a pointwise relation that forces the filter predicate all
survive the filter. -/
theorem forall₂_filter_self {α β : Type} {R : α → β → Prop} {q : α → Bool} :
    ∀ {rows : List α} {l : List β}, List.Forall₂ R rows l →
      (∀ r d, R r d → q r = true) → rows.filter q = rows := by
  intro rows l hf hq
  induction hf with
  | nil => rfl
  | cons hrd htail ih =>
    simp [List.filter_cons, hq _ _ hrd, ih]

/-- A completed preview save loop appends exactly one fresh active row of the
project per input dict, in order. -/
theorem savePreviewList_ok {pid u : Nat} :
    ∀ {l : List PreviewIn} {s : Store} {v : Unit} {s' : Store},
    ProjectService.savePreviewList s pid u l = .ok v s' →
    ∃ rows, s'.project_previews = s.project_previews ++ rows ∧
      List.Forall₂ (fun (r : ProjectPreview) (d : PreviewIn) =>
        r.project_id = pid ∧ r.image_url = d.image_url ∧ r.caption = d.caption ∧
        r.sort_order = d.sort_order.getD 0 ∧ r.created_by = some u ∧
        r.is_active = true) rows l := by
  intro l
  induction l with
  | nil =>
    intro s v s' h
    simp only [ProjectService.savePreviewList, Res.ok.injEq] at h
    rcases h with ⟨-, rfl⟩
    exact ⟨[], by simp, .nil⟩
  | cons d rest ih =>
    intro s v s' h
    by_cases hv : d.image_url = ""
    · simp [ProjectService.savePreviewList, ProjectPreview.validate, hv] at h
    · simp only [ProjectService.savePreviewList, ProjectPreview.validate, hv, if_false] at h
      rcases ih h with ⟨rows, hprev, hfa⟩
      refine ⟨({ project_id := pid, image_url := d.image_url, caption := d.caption, sort_order := d.sort_order.getD 0, id := some s.next_id, updated_at := none, created_by := some u, updated_by := none, is_active := true } : ProjectPreview) :: rows, ?_, ?_⟩
      · rw [hprev]
        simp [ProjectPreviewRepo.save]
      · exact List.Forall₂.cons ⟨rfl, rfl, rfl, rfl, rfl, rfl⟩ hfa

/-- Folding the by-id preview deletes over a duplicate-free batch of stored
rows soft-deletes exactly the rows whose id is in the batch. -/
theorem deletePreviewList_previews (now : DateTime) :
    ∀ (xs : List ProjectPreview) (s : Store),
      (s.project_previews.map (fun y => y.id)).Nodup →
      (∀ x ∈ xs, x ∈ s.project_previews) →
      ((xs.map (fun y => y.id)).Nodup) →
      (∀ x ∈ xs, x.id.isSome) →
      (ProjectService.deletePreviewList s xs now).project_previews =
        s.project_previews.map (fun y =>
          if (xs.map (fun x => x.id)).contains y.id
          then { y with is_active := false, updated_at := some now } else y) := by
  intro xs
  induction xs with
  | nil =>
    intro s _ _ _ _
    simp [ProjectService.deletePreviewList]
  | cons x rest ih =>
    intro s hnd hsub hxnd hsome
    have hxm : x ∈ s.project_previews := hsub x (by simp)
    obtain ⟨i, hi⟩ := Option.isSome_iff_exists.mp (hsome x (by simp))
    have hstep : ProjectService.deletePreviewList s (x :: rest) now =
        ProjectService.deletePreviewList
          (ProjectPreviewRepo.delete s (x.id.getD 0) now).2 rest now := by
      simp [ProjectService.deletePreviewList]
    rw [hstep]
    have hgd : x.id.getD 0 = i := by
      rw [hi]
      rfl
    have hdel : (ProjectPreviewRepo.delete s (x.id.getD 0) now).2 =
        { s with project_previews := s.project_previews.map (fun y =>
            if y.id == some i
            then { y with is_active := false, updated_at := some now } else y) } := by
      rw [hgd]
      unfold ProjectPreviewRepo.delete
      rw [updateFirst_char hnd hxm hi]
    rw [hdel]
    simp only [List.map_cons, List.nodup_cons] at hxnd
    have hids : x.id ∉ rest.map (fun y => y.id) := hxnd.1
    have hnd' : (((s.project_previews.map (fun y =>
        if y.id == some i
        then { y with is_active := false, updated_at := some now } else y))).map
          (fun y => y.id)).Nodup := by
      rw [List.map_map]
      have hcomp : ((fun y : ProjectPreview => y.id) ∘ (fun y =>
          if y.id == some i
          then { y with is_active := false, updated_at := some now } else y)) =
          fun y : ProjectPreview => y.id := by
        funext y
        by_cases hc : y.id = some i <;> simp [hc]
      rw [hcomp]
      exact hnd
    have hsub' : ∀ z ∈ rest, z ∈ s.project_previews.map (fun y =>
        if y.id == some i
        then { y with is_active := false, updated_at := some now } else y) := by
      intro z hz
      have hzm := hsub z (List.mem_cons_of_mem x hz)
      have hzid : ¬ (z.id == some i) = true := by
        intro hc
        apply hids
        rw [hi, ← beq_iff_eq.mp hc]
        exact List.mem_map_of_mem (fun y => y.id) hz
      exact List.mem_map.2 ⟨z, hzm, by rw [if_neg hzid]⟩
    rw [ih _ hnd' hsub' hxnd.2 (fun z hz => hsome z (List.mem_cons_of_mem x hz))]
    rw [List.map_map]
    apply List.map_congr_left
    intro y hy
    by_cases hc : (y.id == some i) = true
    · have hyi : y.id = some i := beq_iff_eq.mp hc
      have hyrest : y.id ∉ rest.map (fun x => x.id) := by
        rw [hyi, ← hi]
        exact hids
      simp [Function.comp, hc, hyi, hi, hyrest]
    · have hc' : ¬ y.id = some i := by
        intro hcc
        exact hc (by simp [hcc])
      simp [Function.comp, hc, hc', hi]

/-- Soft-deleting all active association rows of a project and then appending
one fresh row per supplied id leaves exactly the fresh rows active for the
project. -/
theorem techs_filter_replace (P u : Nat) (now : DateTime) (s1 : Store) (l : List Nat) :
    ((ProjectService.saveTechList (ProjectTechRepo.delete_by_project_id s1 P now).2
        P u l).project_techs).filter (fun r => r.project_id == P && r.is_active) =
      l.map (freshTechRow P u) := by
  rw [saveTechList_techs]
  have hD : (ProjectTechRepo.delete_by_project_id s1 P now).2.project_techs =
      s1.project_techs.map (fun m =>
        if m.project_id == P && m.is_active
        then { m with is_active := false, updated_at := some now } else m) := rfl
  rw [hD, List.filter_append]
  have h1 : (s1.project_techs.map (fun m =>
      if m.project_id == P && m.is_active
      then { m with is_active := false, updated_at := some now } else m)).filter
      (fun r => r.project_id == P && r.is_active) = [] := by
    rw [List.filter_eq_nil_iff]
    intro a ha
    rcases List.mem_map.1 ha with ⟨y, hy, rfl⟩
    by_cases hc : (y.project_id == P && y.is_active) = true
    · rw [if_pos hc]
      simp
    · rw [if_neg hc]
      exact hc
  have h2 : (l.map (fun tid => ({ project_id := P, tech_id := tid, updated_at := none, created_by := some u, updated_by := none, is_active := true } : ProjectTech))).filter (fun r => r.project_id == P && r.is_active) = l.map (fun tid => ({ project_id := P, tech_id := tid, updated_at := none, created_by := some u, updated_by := none, is_active := true } : ProjectTech)) := by
    rw [List.filter_eq_self]
    intro a ha
    rcases List.mem_map.1 ha with ⟨tid, -, rfl⟩
    simp
  rw [h1, h2, List.nil_append]
  rfl

/-- A completed delete-then-save preview sequence does not touch the
association table. -/
theorem savePreviewAfterDelete_techs {P u : Nat} {now : DateTime} {s2 : Store}
    {pvl : List PreviewIn} {v : Unit} {s4 : Store}
    (hrun : ProjectService.savePreviewList
      (ProjectService.deletePreviewList s2 (ProjectPreviewRepo.get_by_project_id s2 P) now)
      P u pvl = .ok v s4) :
    s4.project_techs = s2.project_techs := by
  have hst : (ProjectService.savePreviewList
      (ProjectService.deletePreviewList s2 (ProjectPreviewRepo.get_by_project_id s2 P) now)
      P u pvl).store = s4 := by
    rw [hrun]
    rfl
  rw [← hst]
  exact ((savePreviewList_frame P u pvl
      (ProjectService.deletePreviewList s2
        (ProjectPreviewRepo.get_by_project_id s2 P) now)).2.2.2.2.2.2.2).trans
    ((deletePreviewList_frame now (ProjectPreviewRepo.get_by_project_id s2 P) s2).2.2.2.2.2.2.2)

/-- A completed delete-then-save preview sequence leaves exactly the saved
rows active for the project, in the order of the inputs: the lookup collects
every active row of the project, each is soft-deleted, and the new rows are
appended fresh. -/
theorem preview_replace_char (P u : Nat) (now : DateTime) (s2 : Store) (pvl : List PreviewIn)
    (v : Unit) (s4 : Store)
    (hnd : (s2.project_previews.map (fun y => y.id)).Nodup)
    (hall : ∀ r ∈ s2.project_previews, (r.id).isSome)
    (hrun : ProjectService.savePreviewList
      (ProjectService.deletePreviewList s2 (ProjectPreviewRepo.get_by_project_id s2 P) now)
      P u pvl = .ok v s4) :
    List.Forall₂ (previewMatches P u)
      (s4.project_previews.filter (fun r => r.project_id == P && r.is_active)) pvl := by
  obtain ⟨rows, hs4, hfa⟩ := savePreviewList_ok hrun
  have hxs_sub : ∀ x ∈ ProjectPreviewRepo.get_by_project_id s2 P, x ∈ s2.project_previews := by
    intro x hx
    unfold ProjectPreviewRepo.get_by_project_id at hx
    rw [List.mem_insertionSort] at hx
    exact (List.mem_filter.1 hx).1
  have hxs_nd : ((ProjectPreviewRepo.get_by_project_id s2 P).map (fun y => y.id)).Nodup := by
    unfold ProjectPreviewRepo.get_by_project_id
    have hperm := (List.perm_insertionSort (fun a b => a.sort_order ≤ b.sort_order)
      (s2.project_previews.filter (fun m => m.project_id == P && m.is_active))).map
      (fun y => y.id)
    exact hperm.nodup_iff.mpr (hnd.sublist ((List.filter_sublist _).map _))
  have hxs_some : ∀ x ∈ ProjectPreviewRepo.get_by_project_id s2 P, x.id.isSome :=
    fun x hx => hall x (hxs_sub x hx)
  have hdel := deletePreviewList_previews now (ProjectPreviewRepo.get_by_project_id s2 P)
    s2 hnd hxs_sub hxs_nd hxs_some
  rw [hs4, hdel, List.filter_append]
  have h1 : (s2.project_previews.map (fun y =>
      if ((ProjectPreviewRepo.get_by_project_id s2 P).map (fun x => x.id)).contains y.id
      then { y with is_active := false, updated_at := some now } else y)).filter
      (fun r => r.project_id == P && r.is_active) = [] := by
    rw [List.filter_eq_nil_iff]
    intro a ha
    rcases List.mem_map.1 ha with ⟨y, hy, rfl⟩
    by_cases hc : ((ProjectPreviewRepo.get_by_project_id s2 P).map
        (fun x => x.id)).contains y.id = true
    · rw [if_pos hc]
      simp
    · rw [if_neg hc]
      intro hq
      apply hc
      have hyf : y ∈ s2.project_previews.filter (fun m => m.project_id == P && m.is_active) :=
        List.mem_filter.2 ⟨hy, hq⟩
      have hyxs : y ∈ ProjectPreviewRepo.get_by_project_id s2 P := by
        unfold ProjectPreviewRepo.get_by_project_id
        rw [List.mem_insertionSort]
        exact hyf
      have hym : y.id ∈ (ProjectPreviewRepo.get_by_project_id s2 P).map (fun x => x.id) :=
        List.mem_map_of_mem _ hyxs
      simpa using hym
  have h2 : rows.filter (fun r => r.project_id == P && r.is_active) = rows := by
    refine forall₂_filter_self hfa ?_
    intro r d hrd
    simp [hrd.1, hrd.2.2.2.2.2]
  rw [h1, h2, List.nil_append]
  exact hfa

/-- C3: for a successful `update_project` of project `pid`, a supplied
`technology_ids` list replaces the project's associations wholesale (its
active association rows afterwards are exactly one fresh row per supplied id,
in order, all re-inserted even when the id was already present), while
`technology_ids = none` leaves the association table completely untouched;
likewise a supplied `previews` list replaces the project's previews wholesale
(its active preview rows afterwards correspond one-to-one and in order to the
supplied dicts) while `previews = none` leaves the preview table completely
untouched. -/
theorem C3_replace_all_semantics :
    ∀ (s : Store) (u pid : Nat) (title : Option String) (category : Option ProjectCategory)
      (de th li re : Option String) (fe : Option Bool) (wa : Option Nat)
      (ti : Option (List Nat)) (pv : Option (List PreviewIn)) (now : DateTime)
      (p : Project) (s' : Store),
    TableWF s.project_previews (fun y => y.id) →
    ProjectService.update_project s u pid title category de th li re fe wa ti pv now =
      .ok p s' →
    (ti = none → s'.project_techs = s.project_techs) ∧
    (∀ l, ti = some l → s'.project_techs.filter
        (fun r => r.project_id == pid && r.is_active) = l.map (freshTechRow pid u)) ∧
    (pv = none → s'.project_previews = s.project_previews) ∧
    (∀ l, pv = some l → List.Forall₂ (previewMatches pid u)
      (s'.project_previews.filter (fun r => r.project_id == pid && r.is_active)) l) := by
  intro s u pid title category de th li re fe wa ti pv now p s' hwf h
  simp only [ProjectService.update_project] at h
  split at h
  · simp at h
  · rename_i existing hget
    split at h
    · simp at h
    · split at h
      · simp at h
      · split at h
        · simp at h
        · rename_i updated hval
          rcases project_validate_ok hval with ⟨rfl, -⟩
          split at h
          · simp at h
          · rename_i project s1 hupd
            have hexist := List.find?_some
              (show List.find? (fun m => m.id == some pid && m.is_active) s.projects =
                some existing from hget)
            have hexid : existing.id = some pid := by
              simp only [Bool.and_eq_true, beq_iff_eq] at hexist
              exact hexist.1
            have hprid : project.id = some pid := by
              rw [ProjectRepo.update_ok_id hupd]
              exact hexid
            have hgd : project.id.getD 0 = pid := by
              rw [hprid]
              rfl
            obtain ⟨g1, g2, g3, g4, g5, g6, g7, g8, g9⟩ := ProjectRepo.update_frame hupd
            rw [hgd] at h
            rcases pv with _ | pvl
            · dsimp only at h
              simp only [Res.ok.injEq] at h
              obtain ⟨rfl, rfl⟩ := h
              refine ⟨?_, ?_, ?_, ?_⟩
              · intro hti
                subst hti
                dsimp only
                exact g7
              · intro l hti
                subst hti
                dsimp only
                exact techs_filter_replace pid u now s1 l
              · intro _
                rcases ti with _ | tl
                · dsimp only
                  exact g8
                · dsimp only
                  exact ((saveTechList_frame pid u tl
                    (ProjectTechRepo.delete_by_project_id s1 pid
                      now).2).2.2.2.2.2.2.2.1).trans g8
              · intro l hl
                simp at hl
            · dsimp only at h
              split at h
              · simp at h
              · rename_i v s4 hrun
                simp only [Res.ok.injEq] at h
                obtain ⟨rfl, rfl⟩ := h
                refine ⟨?_, ?_, ?_, ?_⟩
                · intro hti
                  subst hti
                  dsimp only at hrun
                  exact (savePreviewAfterDelete_techs hrun).trans g7
                · intro l hti
                  subst hti
                  dsimp only at hrun
                  rw [savePreviewAfterDelete_techs hrun]
                  exact techs_filter_replace pid u now s1 l
                · intro hl
                  simp at hl
                · intro l hl
                  cases hl
                  rcases ti with _ | tl
                  · dsimp only at hrun
                    have hS2 : s1.project_previews = s.project_previews := g8
                    refine preview_replace_char pid u now s1 pvl v s4 ?_ ?_ hrun
                    · rw [hS2]
                      exact hwf.2
                    · rw [hS2]
                      exact hwf.1
                  · dsimp only at hrun
                    have hS2 : (ProjectService.saveTechList
                        (ProjectTechRepo.delete_by_project_id s1 pid now).2
                        pid u tl).project_previews = s.project_previews :=
                      ((saveTechList_frame pid u tl
                        (ProjectTechRepo.delete_by_project_id s1 pid
                          now).2).2.2.2.2.2.2.2.1).trans g8
                    refine preview_replace_char pid u now _ pvl v s4 ?_ ?_ hrun
                    · rw [hS2]
                      exact hwf.2
                    · rw [hS2]
                      exact hwf.1

/-- C3 witness: a concrete replace-all run on the fixture store - project 12
already has one active association (tech 13) and one active preview; updating
with `technology_ids = some [13]` and one preview dict succeeds, after which
the only active association row of project 12 is the fresh row for tech 13 and
the only active preview row corresponds to the supplied dict. -/
theorem C3_replace_all_semantics_witness :
    TableWF storeAB.project_previews (fun y => y.id) ∧
    ProjectService.update_project storeAB 1 12 none none none none none none none none
      (some [13]) (some [c3previn]) 7 = .ok c3proj c3store ∧
    c3store.project_techs.filter (fun r => r.project_id == 12 && r.is_active) =
      [13].map (freshTechRow 12 1) ∧
    List.Forall₂ (previewMatches 12 1)
      (c3store.project_previews.filter (fun r => r.project_id == 12 && r.is_active))
      [c3previn] := by
  have h := C3_replace_all_semantics storeAB 1 12 none none none none none none none none
    (some [13]) (some [c3previn]) 7 c3proj c3store (by decide) (by rfl)
  exact ⟨by decide, by rfl, h.2.1 [13] rfl, h.2.2.2 [c3previn] rfl⟩

end BackendCV
